import Mathlib

/-!
Verification of hypervisor/boot/multiboot2.c: conversion of a multiboot2
tag stream into the fixed-capacity acrn_multiboot_info structure.

The raw bootloader memory is modelled as a list of bytes indexed from the
base address of the multiboot2 info block; pointer values are therefore
offsets into that list.  Machine integers are modelled as Nat with
explicit reduction modulo 2^32 or 2^64 where the C code relies on
fixed-width behaviour.  The walk over the tag stream is a fuel-indexed
recursion; the fuel chosen by the top-level entry point is large enough
for every terminating run of the C loop, and a distinguished flag records
the (never exercised by these theorems) case where the C loop would not
terminate.
-/

namespace MB2

/-- Reads one byte of bootloader memory; positions outside the modelled
region read as zero. -/
def byteAt (mem : List Nat) (i : Nat) : Nat := mem.getD i 0 % 256

/-- Little-endian 32-bit load, as the C code reads a uint32_t field. -/
def readU32 (mem : List Nat) (i : Nat) : Nat :=
  byteAt mem i + 256 * byteAt mem (i + 1) + 65536 * byteAt mem (i + 2) +
    16777216 * byteAt mem (i + 3)

/-- Little-endian 64-bit load, as the C code reads a uint64_t field. -/
def readU64 (mem : List Nat) (i : Nat) : Nat :=
  readU32 mem i + 4294967296 * readU32 mem (i + 4)

/-- Modelled from the spec: the multiboot2 tag catalog (the numeric tag
ids come from the multiboot2 header, which is not part of the excerpt;
the spec fixes END = 0 and names the recognized tags). -/
def MULTIBOOT2_TAG_TYPE_END : Nat := 0

/-- Modelled from the spec: boot-loader-name tag id. -/
def MULTIBOOT2_TAG_TYPE_BOOT_LOADER_NAME : Nat := 2

/-- Modelled from the spec: module tag id. -/
def MULTIBOOT2_TAG_TYPE_MODULE : Nat := 3

/-- Modelled from the spec: memory-map tag id. -/
def MULTIBOOT2_TAG_TYPE_MMAP : Nat := 6

/-- Modelled from the spec: 64-bit EFI system-table tag id. -/
def MULTIBOOT2_TAG_TYPE_EFI64 : Nat := 12

/-- Modelled from the spec: new-format ACPI RSDP tag id. -/
def MULTIBOOT2_TAG_TYPE_ACPI_NEW : Nat := 15

/-- Modelled from the spec: EFI memory-map tag id. -/
def MULTIBOOT2_TAG_TYPE_EFI_MMAP : Nat := 17

/-- Modelled from the spec: highest officially assigned multiboot2 tag id. -/
def MULTIBOOT2_TAG_TYPE_LOAD_BASE_ADDR : Nat := 21

/-- Modelled from the spec: tags start at 8-byte aligned addresses. -/
def MULTIBOOT2_INFO_ALIGN : Nat := 8

/-- Modelled from the spec: capacity of the normalized memory-map array. -/
def E820_MAX_ENTRIES : Nat := 32

/-- Modelled from the spec: capacity of the normalized module array. -/
def MAX_MODULE_COUNT : Nat := 4

/-- Modelled from the spec: distinct flag bits of the populated-sub-record
bitmask (the concrete values live in a header outside the excerpt; only
their distinctness is relevant). -/
def MULTIBOOT_INFO_HAS_MMAP : Nat := 64

/-- Modelled from the spec: flag bit recording that module data was seen. -/
def MULTIBOOT_INFO_HAS_MODS : Nat := 8

/-- Modelled from the spec: shared flag bit set by both EFI handlers. -/
def MULTIBOOT_INFO_HAS_EFI64 : Nat := 8192

/-- Modelled from the spec: flag bit for an EFI memory map, declared but
never set by this converter. -/
def MULTIBOOT_INFO_HAS_EFI_MMAP : Nat := 65536

/-- Modelled from the spec: errno constant used for FormatError returns. -/
def EINVAL : Int := 22

/-- Modelled from the spec: the fixed loader-signature constant stored by
the EFI64 handler; its concrete value is irrelevant to every claim. -/
def efiloader_sig : Nat := 1279869253

/-- One normalized e820 record: base address, length and type of a
physical memory region. -/
structure e820_entry where
  baseaddr : Nat
  length : Nat
  type : Nat
deriving DecidableEq

/-- One normalized module record. -/
structure multiboot_module where
  mm_mod_start : Nat
  mm_mod_end : Nat
  mm_string : Nat
deriving DecidableEq

/-- The efi_info sub-record of the normalized boot info. -/
structure efi_info where
  efi_systab : Nat
  efi_loader_signature : Nat
  efi_memdesc_size : Nat
  efi_memdesc_version : Nat
  efi_memmap : Nat
  efi_memmap_size : Nat
  efi_memmap_hi : Nat
deriving DecidableEq

/-- The normalized boot info structure populated by the walk.  The two
fixed-capacity C arrays are lists of length E820_MAX_ENTRIES and
MAX_MODULE_COUNT respectively. -/
structure acrn_multiboot_info where
  mi_flags : Nat
  mi_mmap_entries : Nat
  mi_mmap_entry : List e820_entry
  mi_mods_count : Nat
  mi_mods : List multiboot_module
  mi_loader_name : Nat
  mi_acpi_rsdp : Nat
  mi_efi_info : efi_info
deriving DecidableEq

/-- The pre-zeroed normalized boot info handed to the converter by its
caller. -/
def acrn_multiboot_info.zero : acrn_multiboot_info :=
  { mi_flags := 0
    mi_mmap_entries := 0
    mi_mmap_entry := List.replicate E820_MAX_ENTRIES ⟨0, 0, 0⟩
    mi_mods_count := 0
    mi_mods := List.replicate MAX_MODULE_COUNT ⟨0, 0, 0⟩
    mi_loader_name := 0
    mi_acpi_rsdp := 0
    mi_efi_info := ⟨0, 0, 0, 0, 0, 0, 0⟩ }

/-- Reads one 24-byte multiboot2 mmap entry record (addr, len, type);
the trailing 4 reserved bytes are not read by the C code. -/
def readE820 (mem : List Nat) (p : Nat) : e820_entry :=
  ⟨readU64 mem p, readU64 mem (p + 8), readU32 mem (p + 16)⟩

/-- The copy loop of mb2_mmap_to_mbi: for i below n the i-th normalized
slot receives the i-th stream entry (each entry record is 24 bytes,
starting 16 bytes into the tag). -/
def copyEntries (mem : List Nat) (base : Nat) :
    Nat → List e820_entry → List e820_entry
  | 0, arr => arr
  | n + 1, arr => (copyEntries mem base n arr).set n (readE820 mem (base + 24 * n))

/-- Handler mb2_mmap_to_mbi.  The entry count is computed from the tag
size in unsigned 32-bit arithmetic: (size - 16U) wraps modulo 2^32 when
size is below 16.  Counts above capacity are clamped; the clamped number
of entries is copied in stream order and HAS_MMAP is set. -/
def mb2_mmap_to_mbi (mbi : acrn_multiboot_info) (mem : List Nat) (off : Nat) :
    acrn_multiboot_info :=
  let sz := readU32 mem (off + 4)
  let n0 := ((sz + 4294967296 - 16) % 4294967296) / 24
  let n := if n0 > E820_MAX_ENTRIES then E820_MAX_ENTRIES else n0
  { mbi with
    mi_mmap_entries := n
    mi_mmap_entry := copyEntries mem (off + 16) n mbi.mi_mmap_entry
    mi_flags := mbi.mi_flags ||| MULTIBOOT_INFO_HAS_MMAP }

/-- Handler mb2_mods_to_mbi.  A module index at or above capacity stores
nothing and leaves the count alone; otherwise the module record is stored
at that index and the count becomes index + 1.  The cmdline pointer is
the (32-bit truncated) address of the command-line bytes inside the tag,
i.e. 16 bytes past the tag start.  HAS_MODS is set on both paths. -/
def mb2_mods_to_mbi (mbi : acrn_multiboot_info) (mbi_mod_idx : Nat)
    (mem : List Nat) (off : Nat) : acrn_multiboot_info :=
  if mbi_mod_idx ≥ MAX_MODULE_COUNT then
    { mbi with mi_flags := mbi.mi_flags ||| MULTIBOOT_INFO_HAS_MODS }
  else
    { mbi with
      mi_mods := mbi.mi_mods.set mbi_mod_idx
        ⟨readU32 mem (off + 8), readU32 mem (off + 12), (off + 16) % 4294967296⟩
      mi_mods_count := mbi_mod_idx + 1
      mi_flags := mbi.mi_flags ||| MULTIBOOT_INFO_HAS_MODS }

/-- Handler mb2_efi64_to_mbi: stores the low 32 bits of the EFI system
table pointer and the loader signature, and sets the shared EFI flag. -/
def mb2_efi64_to_mbi (mbi : acrn_multiboot_info) (mem : List Nat) (off : Nat) :
    acrn_multiboot_info :=
  { mbi with
    mi_efi_info := { mbi.mi_efi_info with
      efi_systab := readU64 mem (off + 8) % 4294967296
      efi_loader_signature := efiloader_sig % 4294967296 }
    mi_flags := mbi.mi_flags ||| MULTIBOOT_INFO_HAS_EFI64 }

/-- Handler mb2_efimmap_to_mbi.  Modelled from the spec for the tag
layout (the multiboot2 header is outside the excerpt): descriptor size at
offset 8, descriptor version at offset 12, a reserved word, then the
64-bit memory-map pointer at offset 20.  All efi_info fields are written
first; then the high 32 bits of the pointer are checked.  Non-zero high
bits yield -EINVAL and leave the flags untouched; otherwise the shared
EFI flag bit is set. -/
def mb2_efimmap_to_mbi (mbi : acrn_multiboot_info) (mem : List Nat) (off : Nat) :
    Int × acrn_multiboot_info :=
  let sz := readU32 mem (off + 4)
  let p := readU64 mem (off + 20)
  let ei : efi_info :=
    { mbi.mi_efi_info with
      efi_memdesc_size := readU32 mem (off + 8)
      efi_memdesc_version := readU32 mem (off + 12)
      efi_memmap := p % 4294967296
      efi_memmap_size := (sz + 4294967296 - 16) % 4294967296
      efi_memmap_hi := p / 4294967296 }
  if ei.efi_memmap_hi ≠ 0 then
    (-EINVAL, { mbi with mi_efi_info := ei })
  else
    (0, { mbi with
          mi_efi_info := ei
          mi_flags := mbi.mi_flags ||| MULTIBOOT_INFO_HAS_EFI64 })

/-- Advances a tag size to the next 8-byte boundary, in unsigned 32-bit
arithmetic exactly as the C expression (size + 7U) and NOT 7U. -/
def alignUp8 (sz : Nat) : Nat := ((sz + 7) % 4294967296) / 8 * 8

/-- The switch statement of the walk loop: dispatch on the numeric tag
type, returning the handler outcome, the updated boot info and the
updated module index.  Unhandled ids at or below the highest assigned id
are skipped; ids above it are a FormatError. -/
def dispatchTag (mbi : acrn_multiboot_info) (modIdx : Nat) (mem : List Nat)
    (off ty : Nat) : Int × acrn_multiboot_info × Nat :=
  if ty = MULTIBOOT2_TAG_TYPE_MMAP then
    (0, mb2_mmap_to_mbi mbi mem off, modIdx)
  else if ty = MULTIBOOT2_TAG_TYPE_MODULE then
    (0, mb2_mods_to_mbi mbi modIdx mem off, modIdx + 1)
  else if ty = MULTIBOOT2_TAG_TYPE_BOOT_LOADER_NAME then
    (0, { mbi with mi_loader_name := off + 8 }, modIdx)
  else if ty = MULTIBOOT2_TAG_TYPE_ACPI_NEW then
    (0, { mbi with mi_acpi_rsdp := off + 8 }, modIdx)
  else if ty = MULTIBOOT2_TAG_TYPE_EFI64 then
    (0, mb2_efi64_to_mbi mbi mem off, modIdx)
  else if ty = MULTIBOOT2_TAG_TYPE_EFI_MMAP then
    let r := mb2_efimmap_to_mbi mbi mem off
    (r.1, r.2, modIdx)
  else if ty ≤ MULTIBOOT2_TAG_TYPE_LOAD_BASE_ADDR then
    (0, mbi, modIdx)
  else
    (-EINVAL, mbi, modIdx)

/-- Outcome of a walk: the return code, the final boot info, the trace of
cursor positions at which a tag-header field (type or size) was
dereferenced, and whether the C loop terminated within the available
fuel (ok = false marks a run on which the C loop never terminates). -/
structure WalkResult where
  ret : Int
  mbi : acrn_multiboot_info
  reads : List Nat
  ok : Bool
deriving DecidableEq

/-- The while loop of multiboot2_to_acrn_mbi.  Each loop iteration first
dereferences the type field of the tag at the cursor (the bound check
comes second in the C condition), then checks the bound, then the size
field, dispatches, and on a handler success advances the cursor by the
8-byte aligned size.  The reads trace records the cursor of every
tag-header dereference: the condition (type), the zero-size check (size),
the switch scrutinee (type) and the cursor advance (size). -/
def walkTags (mem : List Nat) (endOff : Nat) :
    Nat → Nat → Nat → acrn_multiboot_info → List Nat → WalkResult
  | 0, _, _, mbi, reads => ⟨0, mbi, reads, false⟩
  | fuel + 1, off, modIdx, mbi, reads =>
    let ty := readU32 mem off
    let reads0 := reads ++ [off]
    if ty ≠ MULTIBOOT2_TAG_TYPE_END ∧ off < endOff then
      let sz := readU32 mem (off + 4)
      if sz = 0 then ⟨-EINVAL, mbi, reads0 ++ [off], true⟩
      else
        let d := dispatchTag mbi modIdx mem off ty
        if d.1 ≠ 0 then ⟨d.1, d.2.1, reads0 ++ [off, off], true⟩
        else
          walkTags mem endOff fuel (off + alignUp8 sz) d.2.2 d.2.1
            (reads0 ++ [off, off, off])
    else ⟨0, mbi, reads0, true⟩

/-- The converter multiboot2_to_acrn_mbi: reads the total size from the
first word, starts the walk at offset 8 and runs it against the end
pointer at that total size.  The fuel covers every terminating run: a
continuing iteration advances the cursor by at least 8 while it stays
below the end pointer. -/
def multiboot2_to_acrn_mbi (mem : List Nat) (mbi : acrn_multiboot_info) :
    WalkResult :=
  let total := readU32 mem 0
  walkTags mem total (total / 8 + 2) 8 0 mbi []

/-! Encoders producing well-formed tag streams, used to state the
round-trip property and to build concrete input streams. -/

/-- Serializes a 32-bit value little-endian. -/
def mkU32 (v : Nat) : List Nat :=
  [v % 256, v / 256 % 256, v / 65536 % 256, v / 16777216 % 256]

/-- Serializes a 64-bit value little-endian. -/
def mkU64 (v : Nat) : List Nat :=
  mkU32 (v % 4294967296) ++ mkU32 (v / 4294967296)

/-- Serializes one 24-byte multiboot2 mmap entry record. -/
def mkE820 (e : e820_entry) : List Nat :=
  mkU64 e.baseaddr ++ mkU64 e.length ++ mkU32 e.type ++ mkU32 0

/-- Serializes an mmap tag holding the given entries (entry size 24,
entry version 0). -/
def mkMmapTag (es : List e820_entry) : List Nat :=
  mkU32 MULTIBOOT2_TAG_TYPE_MMAP ++ mkU32 (16 + 24 * es.length) ++
    mkU32 24 ++ mkU32 0 ++ (es.map mkE820).flatten

/-- Serializes a minimal module tag (mod_start, mod_end, empty command
line), declared size 16, already 8-byte aligned. -/
def mkModTag (m : Nat × Nat) : List Nat :=
  mkU32 MULTIBOOT2_TAG_TYPE_MODULE ++ mkU32 16 ++ mkU32 m.1 ++ mkU32 m.2

/-- Serializes a list of module tags back to back. -/
def mkModTags (ms : List (Nat × Nat)) : List Nat :=
  (ms.map mkModTag).flatten

/-- Serializes the END terminator tag. -/
def mkEndTag : List Nat := mkU32 MULTIBOOT2_TAG_TYPE_END ++ mkU32 8

/-- Serializes an EFI memory-map tag (declared size 28, padded with 4
bytes to the 8-byte boundary), with the layout used by the handler:
descriptor size, descriptor version, reserved word, 64-bit pointer. -/
def mkEfimmapTag (ds dv p : Nat) : List Nat :=
  mkU32 MULTIBOOT2_TAG_TYPE_EFI_MMAP ++ mkU32 28 ++ mkU32 ds ++ mkU32 dv ++
    mkU32 0 ++ mkU64 p ++ mkU32 0

/-- A whole stream carrying one mmap tag, a run of module tags and the
END terminator; the leading word holds the exact total size. -/
def encodeStream (es : List e820_entry) (ms : List (Nat × Nat)) : List Nat :=
  mkU32 (8 + (mkMmapTag es ++ mkModTags ms ++ mkEndTag).length) ++ mkU32 0 ++
    (mkMmapTag es ++ mkModTags ms ++ mkEndTag)

/-- A whole stream carrying a single EFI memory-map tag and the END
terminator. -/
def efimmapStream (ds dv p : Nat) : List Nat :=
  mkU32 48 ++ mkU32 0 ++ mkEfimmapTag ds dv p ++ mkEndTag

/-- The concrete stream of the specification scenario, byte for byte as
stated there: total size 40, one mmap tag with declared size 32, entry
size 24, entry version 0 and one entry record, then an END tag. -/
def c7_literal : List Nat :=
  mkU32 40 ++ mkU32 0 ++ mkU32 6 ++ mkU32 32 ++ mkU32 24 ++ mkU32 0 ++
    mkE820 ⟨1048576, 4096, 1⟩ ++ mkEndTag

/-- The arithmetically consistent variant of the scenario stream: the
mmap tag with one 24-byte entry declares size 40 and the total is 56. -/
def c7_consistent : List Nat :=
  mkU32 56 ++ mkU32 0 ++ mkMmapTag [⟨1048576, 4096, 1⟩] ++ mkEndTag

/-- A stream consisting of the 8-byte header only: total size 8, no tags
and in particular no END tag. -/
def c9_stream : List Nat := mkU32 8 ++ mkU32 0

/-! Lemmas about byte loads over concatenated regions. -/

theorem byteAt_append_right (a b : List Nat) (i : Nat) (h : a.length ≤ i) :
    byteAt (a ++ b) i = byteAt b (i - a.length) := by
  unfold byteAt
  rw [List.getD_append_right a b 0 i h]

theorem readU32_append_right (a b : List Nat) (i : Nat) (h : a.length ≤ i) :
    readU32 (a ++ b) i = readU32 b (i - a.length) := by
  unfold readU32
  rw [byteAt_append_right a b i h, byteAt_append_right a b (i + 1) (by omega),
    byteAt_append_right a b (i + 2) (by omega),
    byteAt_append_right a b (i + 3) (by omega)]
  have h1 : i + 1 - a.length = i - a.length + 1 := by omega
  have h2 : i + 2 - a.length = i - a.length + 2 := by omega
  have h3 : i + 3 - a.length = i - a.length + 3 := by omega
  rw [h1, h2, h3]

theorem readU32_mkU32_append (v : Nat) (r : List Nat) :
    readU32 (mkU32 v ++ r) 0 = v % 4294967296 := by
  simp [readU32, byteAt, mkU32]
  omega

theorem readU32_here (pre : List Nat) (v : Nat) (rest : List Nat) (i : Nat)
    (h : i = pre.length) :
    readU32 (pre ++ (mkU32 v ++ rest)) i = v % 4294967296 := by
  rw [readU32_append_right pre _ i (by omega), h, Nat.sub_self,
    readU32_mkU32_append]

theorem readU64_here (pre : List Nat) (v : Nat) (rest : List Nat) (i : Nat)
    (h : i = pre.length) :
    readU64 (pre ++ (mkU64 v ++ rest)) i = v % 18446744073709551616 := by
  unfold readU64
  have hsplit : pre ++ (mkU64 v ++ rest) =
      pre ++ (mkU32 (v % 4294967296) ++ ((mkU32 (v / 4294967296)) ++ rest)) := by
    simp [mkU64]
  rw [hsplit]
  have h1 : readU32 (pre ++ (mkU32 (v % 4294967296) ++
      ((mkU32 (v / 4294967296)) ++ rest))) i = v % 4294967296 % 4294967296 :=
    readU32_here pre _ _ i h
  have hsplit2 : pre ++ (mkU32 (v % 4294967296) ++ ((mkU32 (v / 4294967296)) ++ rest)) =
      (pre ++ mkU32 (v % 4294967296)) ++ ((mkU32 (v / 4294967296)) ++ rest) := by
    simp
  have h2 : readU32 (pre ++ (mkU32 (v % 4294967296) ++
      ((mkU32 (v / 4294967296)) ++ rest))) (i + 4) = v / 4294967296 % 4294967296 := by
    rw [hsplit2]
    exact readU32_here _ _ _ _ (by simp [mkU32, h])
  rw [h1, h2]
  omega

/-! Lemmas about the mmap copy loop. -/

theorem length_copyEntries (mem : List Nat) (base n : Nat) (arr : List e820_entry) :
    (copyEntries mem base n arr).length = arr.length := by
  induction n with
  | zero => rfl
  | succ n ih => simp [copyEntries, ih]

theorem getElem?_copyEntries_ge (mem : List Nat) (base n i : Nat)
    (arr : List e820_entry) (h : n ≤ i) :
    (copyEntries mem base n arr)[i]? = arr[i]? := by
  induction n with
  | zero => rfl
  | succ n ih =>
    rw [copyEntries, List.getElem?_set_ne (by omega)]
    exact ih (by omega)

theorem getElem?_copyEntries_lt (mem : List Nat) (base n i : Nat)
    (arr : List e820_entry) (h : i < n) (ha : i < arr.length) :
    (copyEntries mem base n arr)[i]? = some (readE820 mem (base + 24 * i)) := by
  induction n with
  | zero => omega
  | succ n ih =>
    by_cases hi : i = n
    · subst hi
      rw [copyEntries, List.getElem?_set_self (by rw [length_copyEntries]; omega)]
    · rw [copyEntries, List.getElem?_set_ne (by omega)]
      exact ih (by omega)

/-! Reading back a serialized mmap entry record. -/

theorem readE820_entries (pre : List Nat) (es : List e820_entry) (rest : List Nat)
    (i : Nat) (h : i < es.length) :
    readE820 (pre ++ ((es.map mkE820).flatten ++ rest)) (pre.length + 24 * i) =
      ⟨es[i].baseaddr % 18446744073709551616,
        es[i].length % 18446744073709551616, es[i].type % 4294967296⟩ := by
  induction es generalizing pre i with
  | nil => simp at h
  | cons e es ih =>
    cases i with
    | zero =>
      have hb : readU64 (pre ++ (((e :: es).map mkE820).flatten ++ rest))
          (pre.length + 24 * 0) = e.baseaddr % 18446744073709551616 := by
        have hm : pre ++ (((e :: es).map mkE820).flatten ++ rest) =
            pre ++ (mkU64 e.baseaddr ++ (mkU64 e.length ++ (mkU32 e.type ++
              (mkU32 0 ++ ((es.map mkE820).flatten ++ rest))))) := by
          simp [mkE820]
        rw [hm]
        exact readU64_here _ _ _ _ (by omega)
      have hl : readU64 (pre ++ (((e :: es).map mkE820).flatten ++ rest))
          (pre.length + 24 * 0 + 8) = e.length % 18446744073709551616 := by
        have hm : pre ++ (((e :: es).map mkE820).flatten ++ rest) =
            (pre ++ mkU64 e.baseaddr) ++ (mkU64 e.length ++ (mkU32 e.type ++
              (mkU32 0 ++ ((es.map mkE820).flatten ++ rest)))) := by
          simp [mkE820]
        rw [hm]
        exact readU64_here _ _ _ _ (by simp [mkU64, mkU32])
      have ht : readU32 (pre ++ (((e :: es).map mkE820).flatten ++ rest))
          (pre.length + 24 * 0 + 16) = e.type % 4294967296 := by
        have hm : pre ++ (((e :: es).map mkE820).flatten ++ rest) =
            (pre ++ mkU64 e.baseaddr ++ mkU64 e.length) ++ (mkU32 e.type ++
              (mkU32 0 ++ ((es.map mkE820).flatten ++ rest))) := by
          simp [mkE820]
        rw [hm]
        exact readU32_here _ _ _ _ (by simp [mkU64, mkU32])
      rw [readE820, hb, hl, ht]
      rfl
    | succ i =>
      have hm : pre ++ (((e :: es).map mkE820).flatten ++ rest) =
          (pre ++ mkE820 e) ++ ((es.map mkE820).flatten ++ rest) := by
        simp
      have hoff : pre.length + 24 * (i + 1) = (pre ++ mkE820 e).length + 24 * i := by
        simp [mkE820, mkU64, mkU32]
        omega
      rw [hm, hoff]
      exact ih _ _ (by simpa using h)

/-! One-iteration unfolding lemmas for the walk loop. -/

theorem walk_step_exit (mem : List Nat) (endOff fuel off modIdx : Nat)
    (mbi : acrn_multiboot_info) (reads : List Nat)
    (h : readU32 mem off = 0 ∨ ¬ off < endOff) :
    walkTags mem endOff (fuel + 1) off modIdx mbi reads =
      ⟨0, mbi, reads ++ [off], true⟩ := by
  simp only [walkTags, MULTIBOOT2_TAG_TYPE_END]
  rw [if_neg (by tauto)]

theorem walk_step_size0 (mem : List Nat) (endOff fuel off modIdx : Nat)
    (mbi : acrn_multiboot_info) (reads : List Nat)
    (hty : readU32 mem off ≠ 0) (hoff : off < endOff)
    (hsz : readU32 mem (off + 4) = 0) :
    walkTags mem endOff (fuel + 1) off modIdx mbi reads =
      ⟨-EINVAL, mbi, reads ++ [off, off], true⟩ := by
  simp only [walkTags, MULTIBOOT2_TAG_TYPE_END]
  rw [if_pos ⟨hty, hoff⟩, if_pos hsz]
  simp

theorem walk_step_dispatch_err (mem : List Nat) (endOff fuel off modIdx : Nat)
    (mbi : acrn_multiboot_info) (reads : List Nat)
    (hty : readU32 mem off ≠ 0) (hoff : off < endOff)
    (hsz : readU32 mem (off + 4) ≠ 0)
    (hd : (dispatchTag mbi modIdx mem off (readU32 mem off)).1 ≠ 0) :
    walkTags mem endOff (fuel + 1) off modIdx mbi reads =
      ⟨(dispatchTag mbi modIdx mem off (readU32 mem off)).1,
        (dispatchTag mbi modIdx mem off (readU32 mem off)).2.1,
        reads ++ [off, off, off], true⟩ := by
  simp only [walkTags, MULTIBOOT2_TAG_TYPE_END]
  rw [if_pos ⟨hty, hoff⟩, if_neg hsz, if_pos hd]
  simp

theorem walk_step_continue (mem : List Nat) (endOff fuel off modIdx : Nat)
    (mbi : acrn_multiboot_info) (reads : List Nat)
    (hty : readU32 mem off ≠ 0) (hoff : off < endOff)
    (hsz : readU32 mem (off + 4) ≠ 0)
    (hd : (dispatchTag mbi modIdx mem off (readU32 mem off)).1 = 0) :
    walkTags mem endOff (fuel + 1) off modIdx mbi reads =
      walkTags mem endOff fuel (off + alignUp8 (readU32 mem (off + 4)))
        (dispatchTag mbi modIdx mem off (readU32 mem off)).2.2
        (dispatchTag mbi modIdx mem off (readU32 mem off)).2.1
        (reads ++ [off, off, off, off]) := by
  simp only [walkTags, MULTIBOOT2_TAG_TYPE_END]
  rw [if_pos ⟨hty, hoff⟩, if_neg hsz, if_neg (by simpa using hd)]
  simp

/-! Evaluation of the dispatch on each tag type. -/

theorem dispatchTag_mmap (mbi : acrn_multiboot_info) (modIdx : Nat)
    (mem : List Nat) (off : Nat) :
    dispatchTag mbi modIdx mem off 6 = (0, mb2_mmap_to_mbi mbi mem off, modIdx) := rfl

theorem dispatchTag_module (mbi : acrn_multiboot_info) (modIdx : Nat)
    (mem : List Nat) (off : Nat) :
    dispatchTag mbi modIdx mem off 3 =
      (0, mb2_mods_to_mbi mbi modIdx mem off, modIdx + 1) := rfl

theorem dispatchTag_efimmap (mbi : acrn_multiboot_info) (modIdx : Nat)
    (mem : List Nat) (off : Nat) :
    dispatchTag mbi modIdx mem off 17 =
      ((mb2_efimmap_to_mbi mbi mem off).1, (mb2_efimmap_to_mbi mbi mem off).2,
        modIdx) := rfl

theorem dispatchTag_skip (mbi : acrn_multiboot_info) (modIdx : Nat)
    (mem : List Nat) (off ty : Nat) (hle : ty ≤ 21)
    (h2 : ty ≠ 2) (h3 : ty ≠ 3) (h6 : ty ≠ 6) (h12 : ty ≠ 12) (h15 : ty ≠ 15)
    (h17 : ty ≠ 17) :
    dispatchTag mbi modIdx mem off ty = (0, mbi, modIdx) := by
  unfold dispatchTag
  simp only [MULTIBOOT2_TAG_TYPE_MMAP, MULTIBOOT2_TAG_TYPE_MODULE,
    MULTIBOOT2_TAG_TYPE_BOOT_LOADER_NAME, MULTIBOOT2_TAG_TYPE_ACPI_NEW,
    MULTIBOOT2_TAG_TYPE_EFI64, MULTIBOOT2_TAG_TYPE_EFI_MMAP,
    MULTIBOOT2_TAG_TYPE_LOAD_BASE_ADDR]
  rw [if_neg h6, if_neg h3, if_neg h2, if_neg h15, if_neg h12, if_neg h17,
    if_pos hle]

theorem dispatchTag_unknown (mbi : acrn_multiboot_info) (modIdx : Nat)
    (mem : List Nat) (off ty : Nat) (h : 21 < ty) :
    dispatchTag mbi modIdx mem off ty = (-EINVAL, mbi, modIdx) := by
  unfold dispatchTag
  simp only [MULTIBOOT2_TAG_TYPE_MMAP, MULTIBOOT2_TAG_TYPE_MODULE,
    MULTIBOOT2_TAG_TYPE_BOOT_LOADER_NAME, MULTIBOOT2_TAG_TYPE_ACPI_NEW,
    MULTIBOOT2_TAG_TYPE_EFI64, MULTIBOOT2_TAG_TYPE_EFI_MMAP,
    MULTIBOOT2_TAG_TYPE_LOAD_BASE_ADDR]
  rw [if_neg (by omega), if_neg (by omega), if_neg (by omega),
    if_neg (by omega), if_neg (by omega), if_neg (by omega), if_neg (by omega)]

/-! State invariants preserved by a dispatch. -/

theorem mb2_mmap_mods_count (mbi : acrn_multiboot_info) (mem : List Nat)
    (off : Nat) : (mb2_mmap_to_mbi mbi mem off).mi_mods_count =
      mbi.mi_mods_count := rfl

theorem mb2_mmap_efi (mbi : acrn_multiboot_info) (mem : List Nat) (off : Nat) :
    (mb2_mmap_to_mbi mbi mem off).mi_efi_info = mbi.mi_efi_info := rfl

theorem mb2_mods_count_le (mbi : acrn_multiboot_info) (idx : Nat)
    (mem : List Nat) (off : Nat) (h : mbi.mi_mods_count ≤ MAX_MODULE_COUNT) :
    (mb2_mods_to_mbi mbi idx mem off).mi_mods_count ≤ MAX_MODULE_COUNT := by
  unfold mb2_mods_to_mbi MAX_MODULE_COUNT at *
  split_ifs with hidx
  · exact h
  · simp only
    omega

theorem mb2_mods_efi (mbi : acrn_multiboot_info) (idx : Nat) (mem : List Nat)
    (off : Nat) : (mb2_mods_to_mbi mbi idx mem off).mi_efi_info =
      mbi.mi_efi_info := by
  unfold mb2_mods_to_mbi
  split_ifs <;> rfl

theorem mb2_efi64_mods_count (mbi : acrn_multiboot_info) (mem : List Nat)
    (off : Nat) : (mb2_efi64_to_mbi mbi mem off).mi_mods_count =
      mbi.mi_mods_count := rfl

theorem mb2_efi64_hi (mbi : acrn_multiboot_info) (mem : List Nat) (off : Nat) :
    (mb2_efi64_to_mbi mbi mem off).mi_efi_info.efi_memmap_hi =
      mbi.mi_efi_info.efi_memmap_hi := rfl

theorem mb2_efimmap_mods_count (mbi : acrn_multiboot_info) (mem : List Nat)
    (off : Nat) : (mb2_efimmap_to_mbi mbi mem off).2.mi_mods_count =
      mbi.mi_mods_count := by
  simp only [mb2_efimmap_to_mbi]
  split_ifs <;> rfl

theorem mb2_efimmap_ret0_hi (mbi : acrn_multiboot_info) (mem : List Nat)
    (off : Nat) (h : (mb2_efimmap_to_mbi mbi mem off).1 = 0) :
    (mb2_efimmap_to_mbi mbi mem off).2.mi_efi_info.efi_memmap_hi = 0 := by
  simp only [mb2_efimmap_to_mbi] at *
  split_ifs at * with hz
  · simp only [EINVAL] at h
    omega
  · simpa using hz

theorem dispatchTag_mods_count_le (mbi : acrn_multiboot_info) (modIdx : Nat)
    (mem : List Nat) (off ty : Nat)
    (h : mbi.mi_mods_count ≤ MAX_MODULE_COUNT) :
    (dispatchTag mbi modIdx mem off ty).2.1.mi_mods_count ≤ MAX_MODULE_COUNT := by
  unfold dispatchTag
  split_ifs
  · simpa [mb2_mmap_mods_count] using h
  · exact mb2_mods_count_le _ _ _ _ h
  · exact h
  · exact h
  · simpa [mb2_efi64_mods_count] using h
  · simpa [mb2_efimmap_mods_count] using h
  · exact h
  · exact h

theorem dispatchTag_hi0 (mbi : acrn_multiboot_info) (modIdx : Nat)
    (mem : List Nat) (off ty : Nat)
    (h0 : mbi.mi_efi_info.efi_memmap_hi = 0)
    (hr : (dispatchTag mbi modIdx mem off ty).1 = 0) :
    (dispatchTag mbi modIdx mem off ty).2.1.mi_efi_info.efi_memmap_hi = 0 := by
  unfold dispatchTag at *
  split_ifs at * with h1 h2 h3 h4 h5 h6 h7
  · rw [mb2_mmap_efi]; exact h0
  · rw [mb2_mods_efi]; exact h0
  · exact h0
  · exact h0
  · rw [mb2_efi64_hi]; exact h0
  · exact mb2_efimmap_ret0_hi _ _ _ hr
  · exact h0
  · simp [EINVAL] at hr

/-! Walk-level invariants. -/

theorem walkTags_mods_count_le (mem : List Nat) (endOff : Nat) :
    ∀ fuel off modIdx mbi reads, mbi.mi_mods_count ≤ MAX_MODULE_COUNT →
      (walkTags mem endOff fuel off modIdx mbi reads).mbi.mi_mods_count ≤
        MAX_MODULE_COUNT := by
  intro fuel
  induction fuel with
  | zero => intro off modIdx mbi reads h; simpa [walkTags] using h
  | succ fuel ih =>
    intro off modIdx mbi reads h
    by_cases hc : readU32 mem off ≠ 0 ∧ off < endOff
    · by_cases hsz : readU32 mem (off + 4) = 0
      · rw [walk_step_size0 mem endOff fuel off modIdx mbi reads hc.1 hc.2 hsz]
        exact h
      · by_cases hd : (dispatchTag mbi modIdx mem off (readU32 mem off)).1 = 0
        · rw [walk_step_continue mem endOff fuel off modIdx mbi reads hc.1 hc.2
            hsz hd]
          exact ih _ _ _ _ (dispatchTag_mods_count_le _ _ _ _ _ h)
        · rw [walk_step_dispatch_err mem endOff fuel off modIdx mbi reads hc.1
            hc.2 hsz hd]
          exact dispatchTag_mods_count_le _ _ _ _ _ h
    · rw [walk_step_exit mem endOff fuel off modIdx mbi reads (by tauto)]
      exact h

theorem walkTags_hi0 (mem : List Nat) (endOff : Nat) :
    ∀ fuel off modIdx mbi reads, mbi.mi_efi_info.efi_memmap_hi = 0 →
      (walkTags mem endOff fuel off modIdx mbi reads).ret = 0 →
      (walkTags mem endOff fuel off modIdx mbi reads).mbi.mi_efi_info.efi_memmap_hi
        = 0 := by
  intro fuel
  induction fuel with
  | zero => intro off modIdx mbi reads h _; simpa [walkTags] using h
  | succ fuel ih =>
    intro off modIdx mbi reads h hret
    by_cases hc : readU32 mem off ≠ 0 ∧ off < endOff
    · by_cases hsz : readU32 mem (off + 4) = 0
      · rw [walk_step_size0 mem endOff fuel off modIdx mbi reads hc.1 hc.2 hsz]
          at hret ⊢
        simp [EINVAL] at hret
      · by_cases hd : (dispatchTag mbi modIdx mem off (readU32 mem off)).1 = 0
        · rw [walk_step_continue mem endOff fuel off modIdx mbi reads hc.1 hc.2
            hsz hd] at hret ⊢
          exact ih _ _ _ _ (dispatchTag_hi0 _ _ _ _ _ h hd) hret
        · rw [walk_step_dispatch_err mem endOff fuel off modIdx mbi reads hc.1
            hc.2 hsz hd] at hret ⊢
          exact absurd hret hd
    · rw [walk_step_exit mem endOff fuel off modIdx mbi reads (by tauto)]
      exact h

theorem walkTags_reads_below (mem : List Nat) (endOff : Nat) :
    ∀ fuel off modIdx mbi reads, (∀ x ∈ reads, x < endOff) →
      ∀ x ∈ (walkTags mem endOff fuel off modIdx mbi reads).reads.dropLast,
        x < endOff := by
  intro fuel
  induction fuel with
  | zero =>
    intro off modIdx mbi reads h x hx
    exact h x (List.dropLast_subset _ (by simpa [walkTags] using hx))
  | succ fuel ih =>
    intro off modIdx mbi reads h x hx
    by_cases hc : readU32 mem off ≠ 0 ∧ off < endOff
    · by_cases hsz : readU32 mem (off + 4) = 0
      · rw [walk_step_size0 mem endOff fuel off modIdx mbi reads hc.1 hc.2 hsz]
          at hx
        have : (reads ++ [off, off]).dropLast = reads ++ [off] := by
          rw [show (reads ++ [off, off]) = (reads ++ [off]) ++ [off] by simp,
            List.dropLast_concat]
        rw [this] at hx
        rcases List.mem_append.mp hx with h1 | h1
        · exact h x h1
        · simp at h1; omega
      · by_cases hd : (dispatchTag mbi modIdx mem off (readU32 mem off)).1 = 0
        · rw [walk_step_continue mem endOff fuel off modIdx mbi reads hc.1 hc.2
            hsz hd] at hx
          refine ih _ _ _ _ ?_ x hx
          intro y hy
          rcases List.mem_append.mp hy with h1 | h1
          · exact h y h1
          · simp at h1; omega
        · rw [walk_step_dispatch_err mem endOff fuel off modIdx mbi reads hc.1
            hc.2 hsz hd] at hx
          have : (reads ++ [off, off, off]).dropLast = reads ++ [off, off] := by
            rw [show (reads ++ [off, off, off]) = (reads ++ [off, off]) ++ [off]
              by simp, List.dropLast_concat]
          rw [this] at hx
          rcases List.mem_append.mp hx with h1 | h1
          · exact h x h1
          · simp at h1; omega
    · rw [walk_step_exit mem endOff fuel off modIdx mbi reads (by tauto)] at hx
      simp only [List.dropLast_concat] at hx
      exact h x hx

/-! Projections of the EFI memory-map handler outcome. -/

theorem mb2_efimmap_ret (mbi : acrn_multiboot_info) (mem : List Nat) (off : Nat) :
    (mb2_efimmap_to_mbi mbi mem off).1 =
      if readU64 mem (off + 20) / 4294967296 ≠ 0 then -EINVAL else 0 := by
  simp only [mb2_efimmap_to_mbi]
  split_ifs <;> simp_all

theorem mb2_efimmap_flags (mbi : acrn_multiboot_info) (mem : List Nat)
    (off : Nat) : (mb2_efimmap_to_mbi mbi mem off).2.mi_flags =
      if readU64 mem (off + 20) / 4294967296 ≠ 0 then mbi.mi_flags
      else mbi.mi_flags ||| MULTIBOOT_INFO_HAS_EFI64 := by
  simp only [mb2_efimmap_to_mbi]
  split_ifs <;> simp_all

theorem mb2_efimmap_efi (mbi : acrn_multiboot_info) (mem : List Nat)
    (off : Nat) : (mb2_efimmap_to_mbi mbi mem off).2.mi_efi_info =
      ⟨mbi.mi_efi_info.efi_systab, mbi.mi_efi_info.efi_loader_signature,
        readU32 mem (off + 8), readU32 mem (off + 12),
        readU64 mem (off + 20) % 4294967296,
        (readU32 mem (off + 4) + 4294967296 - 16) % 4294967296,
        readU64 mem (off + 20) / 4294967296⟩ := by
  simp only [mb2_efimmap_to_mbi]
  split_ifs <;> rfl

/-- C2: when the walk is at a tag whose declared size field is 0 (and the
type is not END, with the cursor still below the end pointer), it aborts
immediately with the negative code -EINVAL, and the output accumulated by
the handlers of all earlier tags is returned exactly as it stands — no
field is rolled back. -/
theorem C2_zero_size_tag_aborts (mem : List Nat) (endOff fuel off modIdx : Nat)
    (mbi : acrn_multiboot_info) (reads : List Nat)
    (hty : readU32 mem off ≠ 0) (hoff : off < endOff)
    (hsz : readU32 mem (off + 4) = 0) :
    (walkTags mem endOff (fuel + 1) off modIdx mbi reads).ret = -EINVAL ∧
    (walkTags mem endOff (fuel + 1) off modIdx mbi reads).ret < 0 ∧
    (walkTags mem endOff (fuel + 1) off modIdx mbi reads).mbi = mbi := by
  rw [walk_step_size0 mem endOff fuel off modIdx mbi reads hty hoff hsz]
  refine ⟨rfl, by norm_num [EINVAL], rfl⟩

/-- C2 witness: a concrete stream whose first tag has type 1 and size 0,
walked from a state already holding data from earlier tags. -/
theorem C2_zero_size_tag_aborts_witness :
    readU32 (mkU32 1 ++ mkU32 0) 0 ≠ 0 ∧ (0 : Nat) < 5 ∧
    readU32 (mkU32 1 ++ mkU32 0) 4 = 0 ∧
    ((walkTags (mkU32 1 ++ mkU32 0) 5 1 0 0
        { acrn_multiboot_info.zero with mi_mods_count := 2 } []).ret = -EINVAL ∧
      (walkTags (mkU32 1 ++ mkU32 0) 5 1 0 0
        { acrn_multiboot_info.zero with mi_mods_count := 2 } []).ret < 0 ∧
      (walkTags (mkU32 1 ++ mkU32 0) 5 1 0 0
        { acrn_multiboot_info.zero with mi_mods_count := 2 } []).mbi =
        { acrn_multiboot_info.zero with mi_mods_count := 2 }) :=
  ⟨by decide, by decide, by decide,
    C2_zero_size_tag_aborts (mkU32 1 ++ mkU32 0) 5 0 0 0
      { acrn_multiboot_info.zero with mi_mods_count := 2 } []
      (by decide) (by decide) (by decide)⟩

/-- C6: at a tag whose numeric type exceeds the highest assigned id (21)
the walk aborts with the negative code -EINVAL and returns the
accumulated output unchanged; at a tag whose type is within the assigned
range but has no dedicated handler the walk continues at the next tag
with the state untouched, so the final return code is exactly that of the
rest of the stream. -/
theorem C6_unknown_vs_unhandled (mem : List Nat) (endOff fuel off modIdx : Nat)
    (mbi : acrn_multiboot_info) (reads : List Nat)
    (hoff : off < endOff) (hty : readU32 mem off ≠ 0)
    (hsz : readU32 mem (off + 4) ≠ 0) :
    (21 < readU32 mem off →
      (walkTags mem endOff (fuel + 1) off modIdx mbi reads).ret = -EINVAL ∧
      (walkTags mem endOff (fuel + 1) off modIdx mbi reads).ret < 0 ∧
      (walkTags mem endOff (fuel + 1) off modIdx mbi reads).mbi = mbi) ∧
    (readU32 mem off ≤ 21 →
      readU32 mem off ∉ ([2, 3, 6, 12, 15, 17] : List Nat) →
      walkTags mem endOff (fuel + 1) off modIdx mbi reads =
        walkTags mem endOff fuel (off + alignUp8 (readU32 mem (off + 4)))
          modIdx mbi (reads ++ [off, off, off, off])) := by
  constructor
  · intro hgt
    have hd : (dispatchTag mbi modIdx mem off (readU32 mem off)).1 ≠ 0 := by
      rw [dispatchTag_unknown mbi modIdx mem off _ hgt]
      norm_num [EINVAL]
    rw [walk_step_dispatch_err mem endOff fuel off modIdx mbi reads hty hoff
      hsz hd, dispatchTag_unknown mbi modIdx mem off _ hgt]
    exact ⟨rfl, by norm_num [EINVAL], rfl⟩
  · intro hle hmem
    simp only [List.mem_cons, List.not_mem_nil] at hmem
    push_neg at hmem
    obtain ⟨h2, h3, h6, h12, h15, h17, -⟩ := hmem
    have hd : dispatchTag mbi modIdx mem off (readU32 mem off) = (0, mbi, modIdx) :=
      dispatchTag_skip mbi modIdx mem off _ hle h2 h3 h6 h12 h15 h17
    rw [walk_step_continue mem endOff fuel off modIdx mbi reads hty hoff hsz
      (by rw [hd]), hd]

/-- C6 witness: tag type 4 (assigned, unhandled) is skipped; the
instantiated theorem also covers the abort conjunct vacuously. -/
theorem C6_unknown_vs_unhandled_witness :
    ((0 : Nat) < 16 ∧ readU32 (mkU32 4 ++ mkU32 8) 0 ≠ 0 ∧
      readU32 (mkU32 4 ++ mkU32 8) 4 ≠ 0) ∧
    ((21 < readU32 (mkU32 4 ++ mkU32 8) 0 →
      (walkTags (mkU32 4 ++ mkU32 8) 16 1 0 0 acrn_multiboot_info.zero []).ret
        = -EINVAL ∧
      (walkTags (mkU32 4 ++ mkU32 8) 16 1 0 0 acrn_multiboot_info.zero []).ret
        < 0 ∧
      (walkTags (mkU32 4 ++ mkU32 8) 16 1 0 0 acrn_multiboot_info.zero []).mbi
        = acrn_multiboot_info.zero) ∧
    (readU32 (mkU32 4 ++ mkU32 8) 0 ≤ 21 →
      readU32 (mkU32 4 ++ mkU32 8) 0 ∉ ([2, 3, 6, 12, 15, 17] : List Nat) →
      walkTags (mkU32 4 ++ mkU32 8) 16 1 0 0 acrn_multiboot_info.zero [] =
        walkTags (mkU32 4 ++ mkU32 8) 16 0
          (0 + alignUp8 (readU32 (mkU32 4 ++ mkU32 8) 4)) 0
          acrn_multiboot_info.zero ([] ++ [0, 0, 0, 0]))) :=
  ⟨⟨by decide, by decide, by decide⟩,
    C6_unknown_vs_unhandled (mkU32 4 ++ mkU32 8) 16 0 0 0
      acrn_multiboot_info.zero [] (by decide) (by decide) (by decide)⟩

/-- Shared core of the clamping behaviour of the mmap handler: whenever
the computed entry count exceeds capacity, the stored count is pinned at
E820_MAX_ENTRIES, that many stream entries are copied in order, HAS_MMAP
is set and the walk continues at the next tag. -/
theorem mmap_truncation_core (mem : List Nat) (endOff fuel off modIdx : Nat)
    (mbi : acrn_multiboot_info) (reads : List Nat)
    (hlen : mbi.mi_mmap_entry.length = E820_MAX_ENTRIES)
    (hn : ((readU32 mem (off + 4) + 4294967296 - 16) % 4294967296) / 24 >
      E820_MAX_ENTRIES)
    (hty : readU32 mem off = 6) (hoff : off < endOff)
    (hsz : readU32 mem (off + 4) ≠ 0) :
    (mb2_mmap_to_mbi mbi mem off).mi_mmap_entries = E820_MAX_ENTRIES ∧
    (∀ i, i < E820_MAX_ENTRIES →
      (mb2_mmap_to_mbi mbi mem off).mi_mmap_entry[i]? =
        some (readE820 mem (off + 16 + 24 * i))) ∧
    (mb2_mmap_to_mbi mbi mem off).mi_flags =
      mbi.mi_flags ||| MULTIBOOT_INFO_HAS_MMAP ∧
    walkTags mem endOff (fuel + 1) off modIdx mbi reads =
      walkTags mem endOff fuel (off + alignUp8 (readU32 mem (off + 4))) modIdx
        (mb2_mmap_to_mbi mbi mem off) (reads ++ [off, off, off, off]) := by
  have hmm : mb2_mmap_to_mbi mbi mem off =
      { mbi with
        mi_mmap_entries := E820_MAX_ENTRIES
        mi_mmap_entry :=
          copyEntries mem (off + 16) E820_MAX_ENTRIES mbi.mi_mmap_entry
        mi_flags := mbi.mi_flags ||| MULTIBOOT_INFO_HAS_MMAP } := by
    simp only [mb2_mmap_to_mbi]
    rw [if_pos hn]
  refine ⟨by rw [hmm], ?_, by rw [hmm], ?_⟩
  · intro i hi
    rw [hmm]
    simp only
    rw [getElem?_copyEntries_lt mem (off + 16) E820_MAX_ENTRIES i
      mbi.mi_mmap_entry hi (by omega)]
  · have hd : (dispatchTag mbi modIdx mem off (readU32 mem off)).1 = 0 := by
      rw [hty, dispatchTag_mmap]
    rw [walk_step_continue mem endOff fuel off modIdx mbi reads
      (by rw [hty]; omega) hoff hsz hd, hty, dispatchTag_mmap]

/-- C4: an mmap tag whose computed entry count exceeds E820_MAX_ENTRIES
stores exactly E820_MAX_ENTRIES entries, copied in stream order from the
first entry records of the tag, pins the stored count at capacity, sets
HAS_MMAP, and the walk continues at the next tag with no error from this
tag: the overall outcome is exactly that of the rest of the stream. -/
theorem C4_mmap_truncation (mem : List Nat) (endOff fuel off modIdx : Nat)
    (mbi : acrn_multiboot_info) (reads : List Nat)
    (hlen : mbi.mi_mmap_entry.length = E820_MAX_ENTRIES)
    (hn : ((readU32 mem (off + 4) + 4294967296 - 16) % 4294967296) / 24 >
      E820_MAX_ENTRIES)
    (hty : readU32 mem off = 6) (hoff : off < endOff)
    (hsz : readU32 mem (off + 4) ≠ 0) :
    (mb2_mmap_to_mbi mbi mem off).mi_mmap_entries = E820_MAX_ENTRIES ∧
    (∀ i, i < E820_MAX_ENTRIES →
      (mb2_mmap_to_mbi mbi mem off).mi_mmap_entry[i]? =
        some (readE820 mem (off + 16 + 24 * i))) ∧
    (mb2_mmap_to_mbi mbi mem off).mi_flags =
      mbi.mi_flags ||| MULTIBOOT_INFO_HAS_MMAP ∧
    walkTags mem endOff (fuel + 1) off modIdx mbi reads =
      walkTags mem endOff fuel (off + alignUp8 (readU32 mem (off + 4))) modIdx
        (mb2_mmap_to_mbi mbi mem off) (reads ++ [off, off, off, off]) :=
  mmap_truncation_core mem endOff fuel off modIdx mbi reads hlen hn hty hoff hsz

/-- C4 witness: an mmap tag claiming size 808 (33 entries); only the tag
header bytes are materialized, the entry payload reads as zeros. -/
theorem C4_mmap_truncation_witness :
    (acrn_multiboot_info.zero.mi_mmap_entry.length = E820_MAX_ENTRIES ∧
      ((readU32 (mkU32 6 ++ mkU32 808) 4 + 4294967296 - 16) % 4294967296) / 24 >
        E820_MAX_ENTRIES) ∧
    ((mb2_mmap_to_mbi acrn_multiboot_info.zero (mkU32 6 ++ mkU32 808) 0).mi_mmap_entries
        = E820_MAX_ENTRIES ∧
      (∀ i, i < E820_MAX_ENTRIES →
        (mb2_mmap_to_mbi acrn_multiboot_info.zero (mkU32 6 ++ mkU32 808) 0).mi_mmap_entry[i]? =
          some (readE820 (mkU32 6 ++ mkU32 808) (0 + 16 + 24 * i))) ∧
      (mb2_mmap_to_mbi acrn_multiboot_info.zero (mkU32 6 ++ mkU32 808) 0).mi_flags =
        acrn_multiboot_info.zero.mi_flags ||| MULTIBOOT_INFO_HAS_MMAP ∧
      walkTags (mkU32 6 ++ mkU32 808) 900 (0 + 1) 0 0 acrn_multiboot_info.zero [] =
        walkTags (mkU32 6 ++ mkU32 808) 900 0
          (0 + alignUp8 (readU32 (mkU32 6 ++ mkU32 808) 4)) 0
          (mb2_mmap_to_mbi acrn_multiboot_info.zero (mkU32 6 ++ mkU32 808) 0)
          ([] ++ [0, 0, 0, 0])) :=
  ⟨⟨by decide, by decide⟩,
    C4_mmap_truncation (mkU32 6 ++ mkU32 808) 900 0 0 0
      acrn_multiboot_info.zero [] (by decide) (by decide) (by decide)
      (by decide) (by decide)⟩

/-- C10: an mmap tag whose declared size is non-zero but below 16 makes
the count expression (size - 16U) / 24 wrap in unsigned 32-bit
arithmetic: the quotient becomes (size + 2^32 - 16) / 24, far above
capacity, so the handler clamps to E820_MAX_ENTRIES, copies that many
entry records from the tag payload position onward, sets HAS_MMAP, and
the walk continues at the next tag without reporting an error. -/
theorem C10_mmap_size_underflow (mem : List Nat) (endOff fuel off modIdx : Nat)
    (mbi : acrn_multiboot_info) (reads : List Nat)
    (hlen : mbi.mi_mmap_entry.length = E820_MAX_ENTRIES)
    (hty : readU32 mem off = 6) (hoff : off < endOff)
    (hpos : readU32 mem (off + 4) ≠ 0) (hlt : readU32 mem (off + 4) < 16) :
    ((readU32 mem (off + 4) + 4294967296 - 16) % 4294967296) / 24 =
      (readU32 mem (off + 4) + 4294967280) / 24 ∧
    ((readU32 mem (off + 4) + 4294967296 - 16) % 4294967296) / 24 >
      E820_MAX_ENTRIES ∧
    (mb2_mmap_to_mbi mbi mem off).mi_mmap_entries = E820_MAX_ENTRIES ∧
    (∀ i, i < E820_MAX_ENTRIES →
      (mb2_mmap_to_mbi mbi mem off).mi_mmap_entry[i]? =
        some (readE820 mem (off + 16 + 24 * i))) ∧
    (mb2_mmap_to_mbi mbi mem off).mi_flags =
      mbi.mi_flags ||| MULTIBOOT_INFO_HAS_MMAP ∧
    walkTags mem endOff (fuel + 1) off modIdx mbi reads =
      walkTags mem endOff fuel (off + alignUp8 (readU32 mem (off + 4))) modIdx
        (mb2_mmap_to_mbi mbi mem off) (reads ++ [off, off, off, off]) := by
  have hwrap : ((readU32 mem (off + 4) + 4294967296 - 16) % 4294967296) =
      readU32 mem (off + 4) + 4294967280 := by omega
  have hn : ((readU32 mem (off + 4) + 4294967296 - 16) % 4294967296) / 24 >
      E820_MAX_ENTRIES := by
    rw [hwrap]
    unfold E820_MAX_ENTRIES
    omega
  obtain ⟨h1, h2, h3, h4⟩ := mmap_truncation_core mem endOff fuel off modIdx mbi
    reads hlen hn hty hoff hpos
  exact ⟨by rw [hwrap], hn, h1, h2, h3, h4⟩

/-- C10 witness: an mmap tag with declared size 8. -/
theorem C10_mmap_size_underflow_witness :
    (acrn_multiboot_info.zero.mi_mmap_entry.length = E820_MAX_ENTRIES ∧
      readU32 (mkU32 6 ++ mkU32 8) 4 ≠ 0 ∧ readU32 (mkU32 6 ++ mkU32 8) 4 < 16) ∧
    (((readU32 (mkU32 6 ++ mkU32 8) 4 + 4294967296 - 16) % 4294967296) / 24 =
        (readU32 (mkU32 6 ++ mkU32 8) 4 + 4294967280) / 24 ∧
      ((readU32 (mkU32 6 ++ mkU32 8) 4 + 4294967296 - 16) % 4294967296) / 24 >
        E820_MAX_ENTRIES ∧
      (mb2_mmap_to_mbi acrn_multiboot_info.zero (mkU32 6 ++ mkU32 8) 0).mi_mmap_entries
        = E820_MAX_ENTRIES ∧
      (∀ i, i < E820_MAX_ENTRIES →
        (mb2_mmap_to_mbi acrn_multiboot_info.zero (mkU32 6 ++ mkU32 8) 0).mi_mmap_entry[i]? =
          some (readE820 (mkU32 6 ++ mkU32 8) (0 + 16 + 24 * i))) ∧
      (mb2_mmap_to_mbi acrn_multiboot_info.zero (mkU32 6 ++ mkU32 8) 0).mi_flags =
        acrn_multiboot_info.zero.mi_flags ||| MULTIBOOT_INFO_HAS_MMAP ∧
      walkTags (mkU32 6 ++ mkU32 8) 100 (0 + 1) 0 0 acrn_multiboot_info.zero [] =
        walkTags (mkU32 6 ++ mkU32 8) 100 0
          (0 + alignUp8 (readU32 (mkU32 6 ++ mkU32 8) 4)) 0
          (mb2_mmap_to_mbi acrn_multiboot_info.zero (mkU32 6 ++ mkU32 8) 0)
          ([] ++ [0, 0, 0, 0])) :=
  ⟨⟨by decide, by decide, by decide⟩,
    C10_mmap_size_underflow (mkU32 6 ++ mkU32 8) 100 0 0 0
      acrn_multiboot_info.zero [] (by decide) (by decide) (by decide)
      (by decide) (by decide)⟩

/-- C5: at every module tag the walk advances the internal module index
by exactly one, whether or not the module is stored; the handler sets
HAS_MODS on every encounter; a module tag arriving with index at or above
MAX_MODULE_COUNT changes nothing except the HAS_MODS flag bit (no module
data is written and the stored count is untouched); and on any walk the
stored module count never exceeds MAX_MODULE_COUNT when it starts there
(the pre-zeroed caller state included). -/
theorem C5_module_capacity (mem : List Nat) (endOff fuel off modIdx : Nat)
    (mbi : acrn_multiboot_info) (reads : List Nat)
    (hty : readU32 mem off = 3) (hoff : off < endOff)
    (hsz : readU32 mem (off + 4) ≠ 0) :
    (walkTags mem endOff (fuel + 1) off modIdx mbi reads =
      walkTags mem endOff fuel (off + alignUp8 (readU32 mem (off + 4)))
        (modIdx + 1) (mb2_mods_to_mbi mbi modIdx mem off)
        (reads ++ [off, off, off, off])) ∧
    ((mb2_mods_to_mbi mbi modIdx mem off).mi_flags =
      mbi.mi_flags ||| MULTIBOOT_INFO_HAS_MODS) ∧
    (MAX_MODULE_COUNT ≤ modIdx →
      mb2_mods_to_mbi mbi modIdx mem off =
        { mbi with mi_flags := mbi.mi_flags ||| MULTIBOOT_INFO_HAS_MODS }) ∧
    (∀ fuel2 off2 modIdx2 (mbi2 : acrn_multiboot_info) reads2,
      mbi2.mi_mods_count ≤ MAX_MODULE_COUNT →
      (walkTags mem endOff fuel2 off2 modIdx2 mbi2 reads2).mbi.mi_mods_count ≤
        MAX_MODULE_COUNT) := by
  refine ⟨?_, ?_, ?_, ?_⟩
  · have hd : (dispatchTag mbi modIdx mem off (readU32 mem off)).1 = 0 := by
      rw [hty, dispatchTag_module]
    rw [walk_step_continue mem endOff fuel off modIdx mbi reads
      (by rw [hty]; omega) hoff hsz hd, hty, dispatchTag_module]
  · unfold mb2_mods_to_mbi
    split_ifs <;> rfl
  · intro hge
    unfold mb2_mods_to_mbi
    rw [if_pos hge]
  · intro fuel2 off2 modIdx2 mbi2 reads2 h2
    exact walkTags_mods_count_le mem endOff fuel2 off2 modIdx2 mbi2 reads2 h2

/-- C5 witness: a module tag met with internal index 4 (capacity already
reached). -/
theorem C5_module_capacity_witness :
    (readU32 (mkU32 3 ++ mkU32 16) 0 = 3 ∧ (0 : Nat) < 20 ∧
      readU32 (mkU32 3 ++ mkU32 16) 4 ≠ 0) ∧
    ((walkTags (mkU32 3 ++ mkU32 16) 20 (0 + 1) 0 4 acrn_multiboot_info.zero [] =
      walkTags (mkU32 3 ++ mkU32 16) 20 0
        (0 + alignUp8 (readU32 (mkU32 3 ++ mkU32 16) 4)) (4 + 1)
        (mb2_mods_to_mbi acrn_multiboot_info.zero 4 (mkU32 3 ++ mkU32 16) 0)
        ([] ++ [0, 0, 0, 0])) ∧
    ((mb2_mods_to_mbi acrn_multiboot_info.zero 4 (mkU32 3 ++ mkU32 16) 0).mi_flags =
      acrn_multiboot_info.zero.mi_flags ||| MULTIBOOT_INFO_HAS_MODS) ∧
    (MAX_MODULE_COUNT ≤ 4 →
      mb2_mods_to_mbi acrn_multiboot_info.zero 4 (mkU32 3 ++ mkU32 16) 0 =
        { acrn_multiboot_info.zero with
          mi_flags := acrn_multiboot_info.zero.mi_flags |||
            MULTIBOOT_INFO_HAS_MODS }) ∧
    (∀ fuel2 off2 modIdx2 (mbi2 : acrn_multiboot_info) reads2,
      mbi2.mi_mods_count ≤ MAX_MODULE_COUNT →
      (walkTags (mkU32 3 ++ mkU32 16) 20 fuel2 off2 modIdx2 mbi2
        reads2).mbi.mi_mods_count ≤ MAX_MODULE_COUNT)) :=
  ⟨⟨by decide, by decide, by decide⟩,
    C5_module_capacity (mkU32 3 ++ mkU32 16) 20 0 0 4
      acrn_multiboot_info.zero [] (by decide) (by decide) (by decide)⟩

/-- C1 counterexample: an EFI-mmap tag whose pointer is exactly 2^32
makes the walk abort with -EINVAL, yet the efi_info fields HAVE been
modified on this path: the whole sub-record differs from its pre-zeroed
state and memmap_hi holds the non-zero high bits — refuting the claim
that on the FormatError path none of the efi_info fields are modified. -/
theorem C1_counterexample :
    (multiboot2_to_acrn_mbi (efimmapStream 5 1 4294967296)
      acrn_multiboot_info.zero).ret = -EINVAL ∧
    (multiboot2_to_acrn_mbi (efimmapStream 5 1 4294967296)
      acrn_multiboot_info.zero).mbi.mi_efi_info.efi_memmap_hi = 1 ∧
    (multiboot2_to_acrn_mbi (efimmapStream 5 1 4294967296)
      acrn_multiboot_info.zero).mbi.mi_efi_info.efi_memdesc_size = 5 ∧
    (multiboot2_to_acrn_mbi (efimmapStream 5 1 4294967296)
      acrn_multiboot_info.zero).mbi.mi_efi_info ≠
      acrn_multiboot_info.zero.mi_efi_info := by decide

/-- C1 (amended): memmap_hi is 0 in the output whenever the walk
succeeds, so a record that passed validation never exposes non-zero high
bits; but on the FormatError path of the EFI-mmap handler the efi_info
fields have already been committed — descriptor size and version, the low
pointer bits, the map size, and memmap_hi carrying the non-zero high
bits — while the flag bits are left unchanged. -/
theorem C1_efimmap_validation_commit :
    (∀ mem, (multiboot2_to_acrn_mbi mem acrn_multiboot_info.zero).ret = 0 →
      (multiboot2_to_acrn_mbi mem
        acrn_multiboot_info.zero).mbi.mi_efi_info.efi_memmap_hi = 0) ∧
    (∀ (mbi : acrn_multiboot_info) (mem : List Nat) (off : Nat),
      readU64 mem (off + 20) / 4294967296 ≠ 0 →
      (mb2_efimmap_to_mbi mbi mem off).1 = -EINVAL ∧
      (mb2_efimmap_to_mbi mbi mem off).2.mi_flags = mbi.mi_flags ∧
      (mb2_efimmap_to_mbi mbi mem off).2.mi_efi_info =
        ⟨mbi.mi_efi_info.efi_systab, mbi.mi_efi_info.efi_loader_signature,
          readU32 mem (off + 8), readU32 mem (off + 12),
          readU64 mem (off + 20) % 4294967296,
          (readU32 mem (off + 4) + 4294967296 - 16) % 4294967296,
          readU64 mem (off + 20) / 4294967296⟩) := by
  constructor
  · intro mem hret
    simp only [multiboot2_to_acrn_mbi] at hret ⊢
    exact walkTags_hi0 mem (readU32 mem 0) (readU32 mem 0 / 8 + 2) 8 0
      acrn_multiboot_info.zero [] rfl hret
  · intro mbi mem off hhi
    refine ⟨?_, ?_, mb2_efimmap_efi mbi mem off⟩
    · rw [mb2_efimmap_ret, if_pos hhi]
    · rw [mb2_efimmap_flags, if_pos hhi]

/-- C1 witness: the success side on a concrete valid stream and the
FormatError side on a concrete tag with pointer 2^32. -/
theorem C1_efimmap_validation_commit_witness :
    ((multiboot2_to_acrn_mbi c7_consistent acrn_multiboot_info.zero).ret = 0 ∧
      (multiboot2_to_acrn_mbi c7_consistent
        acrn_multiboot_info.zero).mbi.mi_efi_info.efi_memmap_hi = 0) ∧
    (readU64 (List.replicate 20 0 ++ mkU64 4294967296) (0 + 20) / 4294967296 ≠ 0 ∧
      ((mb2_efimmap_to_mbi acrn_multiboot_info.zero
          (List.replicate 20 0 ++ mkU64 4294967296) 0).1 = -EINVAL ∧
        (mb2_efimmap_to_mbi acrn_multiboot_info.zero
          (List.replicate 20 0 ++ mkU64 4294967296) 0).2.mi_flags =
          acrn_multiboot_info.zero.mi_flags ∧
        (mb2_efimmap_to_mbi acrn_multiboot_info.zero
          (List.replicate 20 0 ++ mkU64 4294967296) 0).2.mi_efi_info =
          ⟨acrn_multiboot_info.zero.mi_efi_info.efi_systab,
            acrn_multiboot_info.zero.mi_efi_info.efi_loader_signature,
            readU32 (List.replicate 20 0 ++ mkU64 4294967296) (0 + 8),
            readU32 (List.replicate 20 0 ++ mkU64 4294967296) (0 + 12),
            readU64 (List.replicate 20 0 ++ mkU64 4294967296) (0 + 20) % 4294967296,
            (readU32 (List.replicate 20 0 ++ mkU64 4294967296) (0 + 4) +
              4294967296 - 16) % 4294967296,
            readU64 (List.replicate 20 0 ++ mkU64 4294967296) (0 + 20) /
              4294967296⟩)) :=
  ⟨⟨by decide, C1_efimmap_validation_commit.1 c7_consistent (by decide)⟩,
    ⟨by decide, C1_efimmap_validation_commit.2 acrn_multiboot_info.zero
      (List.replicate 20 0 ++ mkU64 4294967296) 0 (by decide)⟩⟩

/-- C7 counterexample: the literal scenario stream of the spec (total
size 40, mmap tag declaring size 32 while carrying one 24-byte entry)
returns 0 and sets HAS_MMAP, but the computed entry count is
(32 - 16) / 24 = 0, so the output holds zero mmap entries, not one. -/
theorem C7_counterexample :
    (multiboot2_to_acrn_mbi c7_literal acrn_multiboot_info.zero).ret = 0 ∧
    (multiboot2_to_acrn_mbi c7_literal
      acrn_multiboot_info.zero).mbi.mi_flags = MULTIBOOT_INFO_HAS_MMAP ∧
    (multiboot2_to_acrn_mbi c7_literal
      acrn_multiboot_info.zero).mbi.mi_mmap_entries = 0 ∧
    ¬ (multiboot2_to_acrn_mbi c7_literal
      acrn_multiboot_info.zero).mbi.mi_mmap_entries = 1 := by decide

/-- C7 (amended): with the sizes made consistent (mmap tag size 40 for
one 24-byte entry, total size 56) the scenario behaves as claimed: the
walk returns 0, sets HAS_MMAP, and the output holds exactly one mmap
entry with base 0x100000, length 0x1000 and type 1. -/
theorem C7_concrete_scenario :
    (multiboot2_to_acrn_mbi c7_consistent acrn_multiboot_info.zero).ret = 0 ∧
    (multiboot2_to_acrn_mbi c7_consistent
      acrn_multiboot_info.zero).mbi.mi_flags = MULTIBOOT_INFO_HAS_MMAP ∧
    (multiboot2_to_acrn_mbi c7_consistent
      acrn_multiboot_info.zero).mbi.mi_mmap_entries = 1 ∧
    (multiboot2_to_acrn_mbi c7_consistent
      acrn_multiboot_info.zero).mbi.mi_mmap_entry[0]? =
      some ⟨1048576, 4096, 1⟩ := by decide

/-- C9 counterexample: on the header-only stream (total size 8, no END
tag) the loop condition dereferences the type field of the tag at offset
8, which is exactly the end-of-stream pointer: the C condition reads the
type before comparing the cursor against the end pointer, refuting the
claim that every tag-header read is strictly below the end pointer. -/
theorem C9_counterexample :
    ¬ ∀ x ∈ (multiboot2_to_acrn_mbi c9_stream acrn_multiboot_info.zero).reads,
        x < readU32 c9_stream 0 := by decide

/-- C9 (amended): every tag-header dereference except possibly the very
last one happens at a cursor strictly below the end-of-stream pointer;
only the final loop-condition read of the type field can touch a cursor
at or beyond the end pointer, because the bound comparison comes second
in the loop condition. -/
theorem C9_header_reads_bounded (mem : List Nat) (mbi : acrn_multiboot_info) :
    ∀ x ∈ (multiboot2_to_acrn_mbi mem mbi).reads.dropLast,
      x < readU32 mem 0 := by
  intro x hx
  simp only [multiboot2_to_acrn_mbi] at hx
  exact walkTags_reads_below mem (readU32 mem 0) (readU32 mem 0 / 8 + 2) 8 0
    mbi [] (by simp) x hx

/-- C9 witness: on the consistent scenario stream the cursor 8 occurs
among the non-final header reads and is indeed below the total size 56. -/
theorem C9_header_reads_bounded_witness :
    8 ∈ (multiboot2_to_acrn_mbi c7_consistent
      acrn_multiboot_info.zero).reads.dropLast ∧
    8 < readU32 c7_consistent 0 :=
  ⟨by decide, C9_header_reads_bounded c7_consistent acrn_multiboot_info.zero 8
    (by decide)⟩

/-! Symbolic run of the single-EFI-mmap-tag stream. -/

theorem efimmapStream_run (ds dv p : Nat) (hp : p < 18446744073709551616) :
    ((multiboot2_to_acrn_mbi (efimmapStream ds dv p)
        acrn_multiboot_info.zero).ret =
      if p / 4294967296 ≠ 0 then -EINVAL else 0) ∧
    ((multiboot2_to_acrn_mbi (efimmapStream ds dv p)
        acrn_multiboot_info.zero).mbi.mi_flags =
      if p / 4294967296 ≠ 0 then 0 else MULTIBOOT_INFO_HAS_EFI64) := by
  have r0 : readU32 (efimmapStream ds dv p) 0 = 48 := by
    have h : efimmapStream ds dv p =
        mkU32 48 ++ (mkU32 0 ++ (mkEfimmapTag ds dv p ++ mkEndTag)) := by
      simp [efimmapStream]
    rw [h, readU32_mkU32_append]
  have r8 : readU32 (efimmapStream ds dv p) 8 = 17 := by
    have h : efimmapStream ds dv p =
        (mkU32 48 ++ mkU32 0) ++ (mkU32 17 ++ (mkU32 28 ++ (mkU32 ds ++
          (mkU32 dv ++ (mkU32 0 ++ (mkU64 p ++ (mkU32 0 ++ mkEndTag))))))) := by
      simp [efimmapStream, mkEfimmapTag, MULTIBOOT2_TAG_TYPE_EFI_MMAP]
    rw [h, readU32_here _ _ _ _ (by simp [mkU32])]
  have r12 : readU32 (efimmapStream ds dv p) (8 + 4) = 28 := by
    have h : efimmapStream ds dv p =
        (mkU32 48 ++ mkU32 0 ++ mkU32 17) ++ (mkU32 28 ++ (mkU32 ds ++
          (mkU32 dv ++ (mkU32 0 ++ (mkU64 p ++ (mkU32 0 ++ mkEndTag)))))) := by
      simp [efimmapStream, mkEfimmapTag, MULTIBOOT2_TAG_TYPE_EFI_MMAP]
    rw [h, readU32_here _ _ _ _ (by simp [mkU32])]
  have r28 : readU64 (efimmapStream ds dv p) (8 + 20) = p := by
    have h : efimmapStream ds dv p =
        (mkU32 48 ++ mkU32 0 ++ mkU32 17 ++ mkU32 28 ++ mkU32 ds ++ mkU32 dv ++
          mkU32 0) ++ (mkU64 p ++ (mkU32 0 ++ mkEndTag)) := by
      simp [efimmapStream, mkEfimmapTag, MULTIBOOT2_TAG_TYPE_EFI_MMAP]
    rw [h, readU64_here _ _ _ _ (by simp [mkU32])]
    exact Nat.mod_eq_of_lt hp
  have r40 : readU32 (efimmapStream ds dv p) (8 + 32) = 0 := by
    have h : efimmapStream ds dv p =
        (mkU32 48 ++ mkU32 0 ++ mkU32 17 ++ mkU32 28 ++ mkU32 ds ++ mkU32 dv ++
          mkU32 0 ++ mkU64 p ++ mkU32 0) ++ (mkU32 0 ++ mkU32 8) := by
      simp [efimmapStream, mkEfimmapTag, mkEndTag, MULTIBOOT2_TAG_TYPE_EFI_MMAP,
        MULTIBOOT2_TAG_TYPE_END]
    rw [h, readU32_here _ _ _ _ (by simp [mkU32, mkU64])]
  have hret : (mb2_efimmap_to_mbi acrn_multiboot_info.zero
      (efimmapStream ds dv p) 8).1 =
      if p / 4294967296 ≠ 0 then -EINVAL else 0 := by
    rw [mb2_efimmap_ret, r28]
  have hflags : (mb2_efimmap_to_mbi acrn_multiboot_info.zero
      (efimmapStream ds dv p) 8).2.mi_flags =
      if p / 4294967296 ≠ 0 then 0 else MULTIBOOT_INFO_HAS_EFI64 := by
    rw [mb2_efimmap_flags, r28]
    split_ifs <;> rfl
  simp only [multiboot2_to_acrn_mbi]
  rw [r0]
  by_cases hpz : p / 4294967296 = 0
  · have hd : (dispatchTag acrn_multiboot_info.zero 0 (efimmapStream ds dv p) 8
        (readU32 (efimmapStream ds dv p) 8)).1 = 0 := by
      rw [r8, dispatchTag_efimmap, hret, if_neg (by omega)]
    rw [walk_step_continue (efimmapStream ds dv p) 48 (48 / 8 + 2 - 1) 8 0
      acrn_multiboot_info.zero [] (by rw [r8]; omega) (by omega)
      (by rw [r12]; omega) hd]
    rw [r12, show alignUp8 28 = 32 from by decide]
    rw [walk_step_exit (efimmapStream ds dv p) 48 (48 / 8 + 2 - 1 - 1) (8 + 32)
      _ _ _ (Or.inl r40)]
    rw [r8, dispatchTag_efimmap]
    simp only [hflags]
    exact ⟨by rw [if_neg (show ¬ p / 4294967296 ≠ 0 by omega)], trivial⟩
  · have hd : (dispatchTag acrn_multiboot_info.zero 0 (efimmapStream ds dv p) 8
        (readU32 (efimmapStream ds dv p) 8)).1 ≠ 0 := by
      rw [r8, dispatchTag_efimmap, hret, if_pos hpz]
      norm_num [EINVAL]
    rw [walk_step_dispatch_err (efimmapStream ds dv p) 48 (48 / 8 + 2 - 1) 8 0
      acrn_multiboot_info.zero [] (by rw [r8]; omega) (by omega)
      (by rw [r12]; omega) hd]
    rw [r8, dispatchTag_efimmap]
    simp only [hret, hflags]
    exact ⟨trivial, trivial⟩

/-- C3: the EFI-mmap handler fails exactly when the 64-bit memory-map
pointer has a bit at position 32 or above set; on failure the outcome is
-EINVAL with the flag bits unchanged (so the shared EFI flag stays
unset), on success the handler sets exactly the flag bit that the EFI64
handler sets; and on the single-EFI-mmap-tag stream the whole walk
returns a negative code with the shared flag clear when the pointer is at
or above 4GiB, and returns 0 with exactly that flag set when the pointer
is below 4GiB. -/
theorem C3_efimmap_failure_iff :
    (∀ (mbi : acrn_multiboot_info) (mem : List Nat) (off : Nat),
      ((mb2_efimmap_to_mbi mbi mem off).1 ≠ 0 ↔
        readU64 mem (off + 20) / 4294967296 ≠ 0)) ∧
    (∀ (mbi : acrn_multiboot_info) (mem : List Nat) (off : Nat),
      readU64 mem (off + 20) / 4294967296 ≠ 0 →
      (mb2_efimmap_to_mbi mbi mem off).1 = -EINVAL ∧
      (mb2_efimmap_to_mbi mbi mem off).1 < 0 ∧
      (mb2_efimmap_to_mbi mbi mem off).2.mi_flags = mbi.mi_flags) ∧
    (∀ (mbi : acrn_multiboot_info) (mem : List Nat) (off : Nat)
      (mem2 : List Nat) (off2 : Nat),
      readU64 mem (off + 20) / 4294967296 = 0 →
      (mb2_efimmap_to_mbi mbi mem off).1 = 0 ∧
      (mb2_efimmap_to_mbi mbi mem off).2.mi_flags =
        mbi.mi_flags ||| MULTIBOOT_INFO_HAS_EFI64 ∧
      (mb2_efi64_to_mbi mbi mem2 off2).mi_flags =
        mbi.mi_flags ||| MULTIBOOT_INFO_HAS_EFI64) ∧
    (∀ ds dv p, p < 18446744073709551616 →
      (((multiboot2_to_acrn_mbi (efimmapStream ds dv p)
          acrn_multiboot_info.zero).ret < 0) ↔ 4294967296 ≤ p) ∧
      (4294967296 ≤ p →
        (multiboot2_to_acrn_mbi (efimmapStream ds dv p)
          acrn_multiboot_info.zero).ret = -EINVAL ∧
        (multiboot2_to_acrn_mbi (efimmapStream ds dv p)
          acrn_multiboot_info.zero).mbi.mi_flags &&&
          MULTIBOOT_INFO_HAS_EFI64 = 0) ∧
      (p < 4294967296 →
        (multiboot2_to_acrn_mbi (efimmapStream ds dv p)
          acrn_multiboot_info.zero).ret = 0 ∧
        (multiboot2_to_acrn_mbi (efimmapStream ds dv p)
          acrn_multiboot_info.zero).mbi.mi_flags =
          MULTIBOOT_INFO_HAS_EFI64)) := by
  refine ⟨?_, ?_, ?_, ?_⟩
  · intro mbi mem off
    rw [mb2_efimmap_ret]
    constructor
    · intro h
      by_contra hz
      rw [if_neg (show ¬ readU64 mem (off + 20) / 4294967296 ≠ 0 by omega)] at h
      exact h rfl
    · intro h
      rw [if_pos h]
      norm_num [EINVAL]
  · intro mbi mem off hhi
    rw [mb2_efimmap_ret, mb2_efimmap_flags, if_pos hhi, if_pos hhi]
    exact ⟨rfl, by norm_num [EINVAL], rfl⟩
  · intro mbi mem off mem2 off2 hz
    rw [mb2_efimmap_ret, mb2_efimmap_flags, if_neg (by omega),
      if_neg (by omega)]
    exact ⟨rfl, rfl, rfl⟩
  · intro ds dv p hp
    obtain ⟨hr, hf⟩ := efimmapStream_run ds dv p hp
    by_cases hpz : p / 4294967296 = 0
    · rw [hr, hf, if_neg (by omega), if_neg (by omega)]
      refine ⟨by constructor <;> intro h <;> omega, by intro h; omega, ?_⟩
      intro _
      exact ⟨rfl, rfl⟩
    · rw [hr, hf, if_pos hpz, if_pos hpz]
      refine ⟨?_, ?_, by intro h; omega⟩
      · constructor
        · intro _
          omega
        · intro _
          norm_num [EINVAL]
      · intro _
        exact ⟨rfl, by decide⟩

/-- C3 witness: pointer 2^32 on the single-tag stream (failing side) and
pointer 4096 (succeeding side). -/
theorem C3_efimmap_failure_iff_witness :
    ((4294967296 : Nat) < 18446744073709551616 ∧
      ((((multiboot2_to_acrn_mbi (efimmapStream 5 1 4294967296)
          acrn_multiboot_info.zero).ret < 0) ↔ 4294967296 ≤ 4294967296) ∧
        (4294967296 ≤ (4294967296 : Nat) →
          (multiboot2_to_acrn_mbi (efimmapStream 5 1 4294967296)
            acrn_multiboot_info.zero).ret = -EINVAL ∧
          (multiboot2_to_acrn_mbi (efimmapStream 5 1 4294967296)
            acrn_multiboot_info.zero).mbi.mi_flags &&&
            MULTIBOOT_INFO_HAS_EFI64 = 0) ∧
        ((4294967296 : Nat) < 4294967296 →
          (multiboot2_to_acrn_mbi (efimmapStream 5 1 4294967296)
            acrn_multiboot_info.zero).ret = 0 ∧
          (multiboot2_to_acrn_mbi (efimmapStream 5 1 4294967296)
            acrn_multiboot_info.zero).mbi.mi_flags =
            MULTIBOOT_INFO_HAS_EFI64))) ∧
    ((4096 : Nat) < 18446744073709551616 ∧
      ((((multiboot2_to_acrn_mbi (efimmapStream 5 1 4096)
          acrn_multiboot_info.zero).ret < 0) ↔ 4294967296 ≤ 4096) ∧
        (4294967296 ≤ (4096 : Nat) →
          (multiboot2_to_acrn_mbi (efimmapStream 5 1 4096)
            acrn_multiboot_info.zero).ret = -EINVAL ∧
          (multiboot2_to_acrn_mbi (efimmapStream 5 1 4096)
            acrn_multiboot_info.zero).mbi.mi_flags &&&
            MULTIBOOT_INFO_HAS_EFI64 = 0) ∧
        ((4096 : Nat) < 4294967296 →
          (multiboot2_to_acrn_mbi (efimmapStream 5 1 4096)
            acrn_multiboot_info.zero).ret = 0 ∧
          (multiboot2_to_acrn_mbi (efimmapStream 5 1 4096)
            acrn_multiboot_info.zero).mbi.mi_flags =
            MULTIBOOT_INFO_HAS_EFI64))) :=
  ⟨⟨by decide, C3_efimmap_failure_iff.2.2.2 5 1 4294967296 (by decide)⟩,
    ⟨by decide, C3_efimmap_failure_iff.2.2.2 5 1 4096 (by decide)⟩⟩

/-! Helper lemmas for the round-trip proof. -/

theorem mb2_mods_len (mbi : acrn_multiboot_info) (idx : Nat) (mem : List Nat)
    (off : Nat) : (mb2_mods_to_mbi mbi idx mem off).mi_mods.length =
      mbi.mi_mods.length := by
  unfold mb2_mods_to_mbi
  split_ifs <;> simp

theorem mb2_mods_mmap (mbi : acrn_multiboot_info) (idx : Nat) (mem : List Nat)
    (off : Nat) :
    (mb2_mods_to_mbi mbi idx mem off).mi_mmap_entries = mbi.mi_mmap_entries ∧
    (mb2_mods_to_mbi mbi idx mem off).mi_mmap_entry = mbi.mi_mmap_entry := by
  unfold mb2_mods_to_mbi
  split_ifs <;> exact ⟨rfl, rfl⟩

theorem length_mkModTags (ms : List (Nat × Nat)) :
    (mkModTags ms).length = 16 * ms.length := by
  induction ms with
  | nil => rfl
  | cons m ms ih =>
    simp only [mkModTags, List.map_cons, List.flatten_cons] at *
    simp only [List.length_append, ih, List.length_cons]
    have h16 : (mkModTag m).length = 16 := by simp [mkModTag, mkU32]
    rw [h16]
    omega

theorem length_entries_flatten (es : List e820_entry) :
    ((es.map mkE820).flatten).length = 24 * es.length := by
  induction es with
  | nil => rfl
  | cons e es ih =>
    simp only [List.map_cons, List.flatten_cons, List.length_append, ih,
      List.length_cons]
    have h24 : (mkE820 e).length = 24 := by simp [mkE820, mkU64, mkU32]
    rw [h24]
    omega

theorem length_mkMmapTag (es : List e820_entry) :
    (mkMmapTag es).length = 16 + 24 * es.length := by
  simp only [mkMmapTag, List.length_append, length_entries_flatten, mkU32,
    List.length_cons, List.length_nil]

theorem alignUp8_eq (s : Nat) (h8 : s % 8 = 0) (hlt : s + 7 < 4294967296) :
    alignUp8 s = s := by
  unfold alignUp8
  omega

/-- A module record whose components fit their widths is unchanged by the
width reductions applied when it is read back. -/
theorem e820_mod_id (e : e820_entry) (hb : e.baseaddr < 18446744073709551616)
    (hl : e.length < 18446744073709551616) (ht : e.type < 4294967296) :
    (⟨e.baseaddr % 18446744073709551616, e.length % 18446744073709551616,
      e.type % 4294967296⟩ : e820_entry) = e := by
  cases e
  simp only at hb hl ht
  simp [Nat.mod_eq_of_lt hb, Nat.mod_eq_of_lt hl, Nat.mod_eq_of_lt ht]

/-- Walking the tail of a stream consisting of a run of encoded module
tags terminated by the END tag: the walk succeeds, stores each module in
order (all fit below capacity by hypothesis), never touches the mmap
fields, and leaves the slots below the starting index alone. -/
theorem walk_modSection (endOff : Nat) (ms : List (Nat × Nat)) :
    ∀ (pre : List Nat) (fuel modIdx : Nat) (mbi : acrn_multiboot_info)
      (reads : List Nat),
    ms.length < fuel →
    modIdx + ms.length ≤ MAX_MODULE_COUNT →
    mbi.mi_mods.length = MAX_MODULE_COUNT →
    pre.length + 16 * ms.length < endOff →
    (walkTags (pre ++ (mkModTags ms ++ mkEndTag)) endOff fuel pre.length modIdx
      mbi reads).ret = 0 ∧
    (walkTags (pre ++ (mkModTags ms ++ mkEndTag)) endOff fuel pre.length modIdx
      mbi reads).mbi.mi_mmap_entries = mbi.mi_mmap_entries ∧
    (walkTags (pre ++ (mkModTags ms ++ mkEndTag)) endOff fuel pre.length modIdx
      mbi reads).mbi.mi_mmap_entry = mbi.mi_mmap_entry ∧
    (ms.length = 0 →
      (walkTags (pre ++ (mkModTags ms ++ mkEndTag)) endOff fuel pre.length
        modIdx mbi reads).mbi.mi_mods_count = mbi.mi_mods_count) ∧
    (0 < ms.length →
      (walkTags (pre ++ (mkModTags ms ++ mkEndTag)) endOff fuel pre.length
        modIdx mbi reads).mbi.mi_mods_count = modIdx + ms.length) ∧
    (∀ j, j < modIdx →
      (walkTags (pre ++ (mkModTags ms ++ mkEndTag)) endOff fuel pre.length
        modIdx mbi reads).mbi.mi_mods[j]? = mbi.mi_mods[j]?) ∧
    (∀ i, i < ms.length →
      (walkTags (pre ++ (mkModTags ms ++ mkEndTag)) endOff fuel pre.length
        modIdx mbi reads).mbi.mi_mods[modIdx + i]? =
        some ⟨(ms.getD i (0, 0)).1 % 4294967296, (ms.getD i (0, 0)).2 % 4294967296,
          (pre.length + 16 * i + 16) % 4294967296⟩) := by
  induction ms with
  | nil =>
    intro pre fuel modIdx mbi reads hfuel hcap hlen hend
    match fuel with
    | fuel + 1 =>
      have hty : readU32 (pre ++ (mkModTags [] ++ mkEndTag)) pre.length = 0 := by
        have h : pre ++ (mkModTags [] ++ mkEndTag) =
            pre ++ (mkU32 0 ++ mkU32 8) := by
          simp [mkModTags, mkEndTag, MULTIBOOT2_TAG_TYPE_END]
        rw [h, readU32_here _ _ _ _ rfl]
      rw [walk_step_exit _ endOff fuel pre.length modIdx mbi reads (Or.inl hty)]
      refine ⟨rfl, rfl, rfl, fun _ => rfl, fun h => by simp at h,
        fun j _ => rfl, fun i hi => by simp at hi⟩
  | cons m ms ih =>
    intro pre fuel modIdx mbi reads hfuel hcap hlen hend
    match fuel with
    | fuel + 1 =>
      have hsplit : pre ++ (mkModTags (m :: ms) ++ mkEndTag) =
          (pre ++ mkModTag m) ++ (mkModTags ms ++ mkEndTag) := by
        simp [mkModTags]
      have hlenmod : (pre ++ mkModTag m).length = pre.length + 16 := by
        simp [mkModTag, mkU32]
      have hty : readU32 (pre ++ (mkModTags (m :: ms) ++ mkEndTag)) pre.length
          = 3 := by
        have h : pre ++ (mkModTags (m :: ms) ++ mkEndTag) =
            pre ++ (mkU32 3 ++ (mkU32 16 ++ (mkU32 m.1 ++ (mkU32 m.2 ++
              (mkModTags ms ++ mkEndTag))))) := by
          simp [mkModTags, mkModTag, MULTIBOOT2_TAG_TYPE_MODULE]
        rw [h, readU32_here _ _ _ _ rfl]
      have hsz : readU32 (pre ++ (mkModTags (m :: ms) ++ mkEndTag))
          (pre.length + 4) = 16 := by
        have h : pre ++ (mkModTags (m :: ms) ++ mkEndTag) =
            (pre ++ mkU32 3) ++ (mkU32 16 ++ (mkU32 m.1 ++ (mkU32 m.2 ++
              (mkModTags ms ++ mkEndTag)))) := by
          simp [mkModTags, mkModTag, MULTIBOOT2_TAG_TYPE_MODULE]
        rw [h, readU32_here _ _ _ _ (by simp [mkU32])]
      have hstart : readU32 (pre ++ (mkModTags (m :: ms) ++ mkEndTag))
          (pre.length + 8) = m.1 % 4294967296 := by
        have h : pre ++ (mkModTags (m :: ms) ++ mkEndTag) =
            (pre ++ mkU32 3 ++ mkU32 16) ++ (mkU32 m.1 ++ (mkU32 m.2 ++
              (mkModTags ms ++ mkEndTag))) := by
          simp [mkModTags, mkModTag, MULTIBOOT2_TAG_TYPE_MODULE]
        rw [h, readU32_here _ _ _ _ (by simp [mkU32])]
      have hmend : readU32 (pre ++ (mkModTags (m :: ms) ++ mkEndTag))
          (pre.length + 12) = m.2 % 4294967296 := by
        have h : pre ++ (mkModTags (m :: ms) ++ mkEndTag) =
            (pre ++ mkU32 3 ++ mkU32 16 ++ mkU32 m.1) ++ (mkU32 m.2 ++
              (mkModTags ms ++ mkEndTag)) := by
          simp [mkModTags, mkModTag, MULTIBOOT2_TAG_TYPE_MODULE]
        rw [h, readU32_here _ _ _ _ (by simp [mkU32])]
      have hd : (dispatchTag mbi modIdx (pre ++ (mkModTags (m :: ms) ++ mkEndTag))
          pre.length (readU32 (pre ++ (mkModTags (m :: ms) ++ mkEndTag))
            pre.length)).1 = 0 := by
        rw [hty, dispatchTag_module]
      rw [walk_step_continue _ endOff fuel pre.length modIdx mbi reads
        (by rw [hty]; omega) (by omega) (by rw [hsz]; omega) hd, hty,
        dispatchTag_module, hsz,
        alignUp8_eq 16 (by omega) (by omega)]
      have hmbi2 : mb2_mods_to_mbi mbi modIdx
          (pre ++ (mkModTags (m :: ms) ++ mkEndTag)) pre.length =
          { mbi with
            mi_mods := mbi.mi_mods.set modIdx
              ⟨m.1 % 4294967296, m.2 % 4294967296,
                (pre.length + 16) % 4294967296⟩
            mi_mods_count := modIdx + 1
            mi_flags := mbi.mi_flags ||| MULTIBOOT_INFO_HAS_MODS } := by
        have hidx : ¬ modIdx ≥ MAX_MODULE_COUNT := by
          simp only [List.length_cons] at hcap
          unfold MAX_MODULE_COUNT at hcap ⊢
          omega
        unfold mb2_mods_to_mbi
        rw [if_neg hidx, hstart, hmend]
      rw [hmbi2, hsplit]
      obtain ⟨ihret, ihme, ihmm, ihc0, ihcpos, ihlow, ihentries⟩ :=
        ih (pre ++ mkModTag m) fuel (modIdx + 1)
          { mbi with
            mi_mods := mbi.mi_mods.set modIdx
              ⟨m.1 % 4294967296, m.2 % 4294967296,
                (pre.length + 16) % 4294967296⟩
            mi_mods_count := modIdx + 1
            mi_flags := mbi.mi_flags ||| MULTIBOOT_INFO_HAS_MODS }
          (reads ++ [pre.length, pre.length, pre.length, pre.length])
          (by simp only [List.length_cons] at hfuel; omega)
          (by simp only [List.length_cons] at hcap; omega)
          (by simpa using hlen)
          (by rw [hlenmod]; simp only [List.length_cons] at hend; omega)
      rw [hlenmod] at ihret ihme ihmm ihc0 ihcpos ihlow ihentries
      refine ⟨ihret, by simpa using ihme, by simpa using ihmm, ?_, ?_, ?_, ?_⟩
      · intro h
        simp at h
      · intro _
        by_cases hms : ms.length = 0
        · rw [ihc0 hms]
          show modIdx + 1 = modIdx + (m :: ms).length
          simp only [List.length_cons]
          omega
        · rw [ihcpos (by omega)]
          simp only [List.length_cons]
          omega
      · intro j hj
        rw [ihlow j (by omega)]
        simp only
        rw [List.getElem?_set_ne (by omega)]
      · intro i hi
        match i with
        | 0 =>
          rw [show modIdx + 0 = modIdx from rfl, ihlow modIdx (by omega)]
          simp only
          rw [List.getElem?_set_self (by omega)]
          simp
        | i + 1 =>
          rw [show modIdx + (i + 1) = (modIdx + 1) + i from by omega,
            ihentries i (by simpa using hi)]
          simp only [List.getD_cons_succ]
          congr 3
          omega

/-- C8: round trip.  Encoding any within-capacity list of mmap entries
and module records as a well-formed END-terminated tag stream and running
the converter on the pre-zeroed output reproduces the same mmap entry
count and values and the same module count and module start/end values
(the stored cmdline pointer is the in-stream address of the command-line
payload, which the encoding determines), with return code 0. -/
theorem C8_roundtrip (es : List e820_entry) (ms : List (Nat × Nat))
    (hes : es.length ≤ E820_MAX_ENTRIES) (hms : ms.length ≤ MAX_MODULE_COUNT)
    (hbe : ∀ e ∈ es, e.baseaddr < 18446744073709551616 ∧
      e.length < 18446744073709551616 ∧ e.type < 4294967296)
    (hbm : ∀ m ∈ ms, m.1 < 4294967296 ∧ m.2 < 4294967296) :
    (multiboot2_to_acrn_mbi (encodeStream es ms)
      acrn_multiboot_info.zero).ret = 0 ∧
    (multiboot2_to_acrn_mbi (encodeStream es ms)
      acrn_multiboot_info.zero).mbi.mi_mmap_entries = es.length ∧
    (∀ i, i < es.length →
      (multiboot2_to_acrn_mbi (encodeStream es ms)
        acrn_multiboot_info.zero).mbi.mi_mmap_entry[i]? =
        some (es.getD i ⟨0, 0, 0⟩)) ∧
    (multiboot2_to_acrn_mbi (encodeStream es ms)
      acrn_multiboot_info.zero).mbi.mi_mods_count = ms.length ∧
    (∀ i, i < ms.length → ∃ s,
      (multiboot2_to_acrn_mbi (encodeStream es ms)
        acrn_multiboot_info.zero).mbi.mi_mods[i]? =
        some ⟨(ms.getD i (0, 0)).1, (ms.getD i (0, 0)).2, s⟩) := by
  unfold E820_MAX_ENTRIES at hes
  unfold MAX_MODULE_COUNT at hms
  have hbody : (mkMmapTag es ++ mkModTags ms ++ mkEndTag).length =
      24 + 24 * es.length + 16 * ms.length := by
    simp only [List.length_append, length_mkMmapTag, length_mkModTags,
      mkEndTag, mkU32, List.length_cons, List.length_nil]
    omega
  have hT : readU32 (encodeStream es ms) 0 =
      32 + 24 * es.length + 16 * ms.length := by
    have h : encodeStream es ms =
        mkU32 (8 + (mkMmapTag es ++ mkModTags ms ++ mkEndTag).length) ++
          (mkU32 0 ++ (mkMmapTag es ++ (mkModTags ms ++ mkEndTag))) := by
      simp [encodeStream]
    rw [h, readU32_mkU32_append]
    rw [show (mkMmapTag es ++ mkModTags ms ++ mkEndTag).length =
      24 + 24 * es.length + 16 * ms.length from hbody]
    omega
  have hty8 : readU32 (encodeStream es ms) 8 = 6 := by
    have h : encodeStream es ms =
        (mkU32 (8 + (mkMmapTag es ++ mkModTags ms ++ mkEndTag).length) ++
          mkU32 0) ++ (mkU32 6 ++ (mkU32 (16 + 24 * es.length) ++ (mkU32 24 ++
            (mkU32 0 ++ ((es.map mkE820).flatten ++
              (mkModTags ms ++ mkEndTag)))))) := by
      simp [encodeStream, mkMmapTag, MULTIBOOT2_TAG_TYPE_MMAP]
    rw [h, readU32_here _ _ _ _ (by simp [mkU32])]
  have hsz12 : readU32 (encodeStream es ms) (8 + 4) = 16 + 24 * es.length := by
    have h : encodeStream es ms =
        (mkU32 (8 + (mkMmapTag es ++ mkModTags ms ++ mkEndTag).length) ++
          mkU32 0 ++ mkU32 6) ++ (mkU32 (16 + 24 * es.length) ++ (mkU32 24 ++
            (mkU32 0 ++ ((es.map mkE820).flatten ++
              (mkModTags ms ++ mkEndTag))))) := by
      simp [encodeStream, mkMmapTag, MULTIBOOT2_TAG_TYPE_MMAP]
    rw [h, readU32_here _ _ _ _ (by simp [mkU32])]
    omega
  have hent : ∀ i, i < es.length →
      readE820 (encodeStream es ms) (8 + 16 + 24 * i) =
        es.getD i ⟨0, 0, 0⟩ := by
    intro i hi
    have h : encodeStream es ms =
        (mkU32 (8 + (mkMmapTag es ++ mkModTags ms ++ mkEndTag).length) ++
          mkU32 0 ++ mkU32 6 ++ mkU32 (16 + 24 * es.length) ++ mkU32 24 ++
          mkU32 0) ++ ((es.map mkE820).flatten ++
            (mkModTags ms ++ mkEndTag)) := by
      simp [encodeStream, mkMmapTag, MULTIBOOT2_TAG_TYPE_MMAP]
    have hplen : (mkU32 (8 + (mkMmapTag es ++ mkModTags ms ++ mkEndTag).length) ++
        mkU32 0 ++ mkU32 6 ++ mkU32 (16 + 24 * es.length) ++ mkU32 24 ++
        mkU32 0).length = 24 := by
      simp [mkU32]
    have he := readE820_entries
      (mkU32 (8 + (mkMmapTag es ++ mkModTags ms ++ mkEndTag).length) ++
        mkU32 0 ++ mkU32 6 ++ mkU32 (16 + 24 * es.length) ++ mkU32 24 ++
        mkU32 0) es (mkModTags ms ++ mkEndTag) i hi
    rw [hplen] at he
    rw [h, show (8 : Nat) + 16 + 24 * i = 24 + 24 * i from by omega, he]
    obtain ⟨hb, hl, ht⟩ := hbe es[i] (List.getElem_mem hi)
    rw [List.getD_eq_getElem es ⟨0, 0, 0⟩ hi]
    exact e820_mod_id _ hb hl ht
  have hmbi1 : mb2_mmap_to_mbi acrn_multiboot_info.zero (encodeStream es ms) 8 =
      { acrn_multiboot_info.zero with
        mi_mmap_entries := es.length
        mi_mmap_entry := copyEntries (encodeStream es ms) (8 + 16) es.length
          acrn_multiboot_info.zero.mi_mmap_entry
        mi_flags := acrn_multiboot_info.zero.mi_flags |||
          MULTIBOOT_INFO_HAS_MMAP } := by
    simp only [mb2_mmap_to_mbi]
    rw [hsz12]
    rw [show ((16 + 24 * es.length + 4294967296 - 16) % 4294967296) / 24 =
      es.length from by omega]
    rw [if_neg (by unfold E820_MAX_ENTRIES; omega)]
  simp only [multiboot2_to_acrn_mbi]
  rw [hT]
  rw [show (32 + 24 * es.length + 16 * ms.length) / 8 + 2 =
    ((32 + 24 * es.length + 16 * ms.length) / 8 + 1) + 1 from rfl]
  have hd : (dispatchTag acrn_multiboot_info.zero 0 (encodeStream es ms) 8
      (readU32 (encodeStream es ms) 8)).1 = 0 := by
    rw [hty8, dispatchTag_mmap]
  rw [walk_step_continue (encodeStream es ms)
    (32 + 24 * es.length + 16 * ms.length)
    ((32 + 24 * es.length + 16 * ms.length) / 8 + 1) 8 0
    acrn_multiboot_info.zero [] (by rw [hty8]; omega) (by omega)
    (by rw [hsz12]; omega) hd, hty8, dispatchTag_mmap, hsz12,
    alignUp8_eq (16 + 24 * es.length) (by omega) (by omega)]
  have hS2 : encodeStream es ms =
      (mkU32 (8 + (mkMmapTag es ++ mkModTags ms ++ mkEndTag).length) ++
        mkU32 0 ++ mkMmapTag es) ++ (mkModTags ms ++ mkEndTag) := by
    simp [encodeStream]
  have hpre2 : (mkU32 (8 + (mkMmapTag es ++ mkModTags ms ++ mkEndTag).length) ++
      mkU32 0 ++ mkMmapTag es).length = 24 + 24 * es.length := by
    simp [mkU32, length_mkMmapTag]
    omega
  rw [hS2] at hmbi1 hent ⊢
  rw [show 8 + (16 + 24 * es.length) =
    (mkU32 (8 + (mkMmapTag es ++ mkModTags ms ++ mkEndTag).length) ++
      mkU32 0 ++ mkMmapTag es).length from by rw [hpre2]; omega]
  obtain ⟨hret, hme, hmm, hc0, hcpos, hlow, hents⟩ :=
    walk_modSection (32 + 24 * es.length + 16 * ms.length) ms
      (mkU32 (8 + (mkMmapTag es ++ mkModTags ms ++ mkEndTag).length) ++
        mkU32 0 ++ mkMmapTag es)
      ((32 + 24 * es.length + 16 * ms.length) / 8 + 1) 0
      (mb2_mmap_to_mbi acrn_multiboot_info.zero
        ((mkU32 (8 + (mkMmapTag es ++ mkModTags ms ++ mkEndTag).length) ++
          mkU32 0 ++ mkMmapTag es) ++ (mkModTags ms ++ mkEndTag)) 8)
      ([] ++ [8, 8, 8, 8])
      (by omega)
      (by unfold MAX_MODULE_COUNT; omega)
      (by rw [hmbi1]
          simp [acrn_multiboot_info.zero, MAX_MODULE_COUNT])
      (by rw [hpre2]; omega)
  refine ⟨hret, ?_, ?_, ?_, ?_⟩
  · rw [hme, hmbi1]
  · intro i hi
    rw [hmm, hmbi1]
    simp only
    rw [getElem?_copyEntries_lt _ _ _ _ _ hi
      (by simp [acrn_multiboot_info.zero, E820_MAX_ENTRIES]; omega)]
    rw [hent i hi]
  · by_cases hmz : ms.length = 0
    · rw [hc0 hmz, hmbi1, hmz]
      rfl
    · rw [hcpos (by omega)]
      omega
  · intro i hi
    have he := hents i hi
    simp only [Nat.zero_add] at he
    have hmem : ms.getD i (0, 0) ∈ ms := by
      rw [List.getD_eq_getElem ms (0, 0) hi]
      exact List.getElem_mem hi
    obtain ⟨h1, h2⟩ := hbm (ms.getD i (0, 0)) hmem
    rw [Nat.mod_eq_of_lt h1, Nat.mod_eq_of_lt h2] at he
    exact ⟨_, he⟩

/-- C8 witness: two mmap entries and two modules survive the round trip. -/
theorem C8_roundtrip_witness :
    (([⟨1048576, 4096, 1⟩, ⟨2097152, 8192, 2⟩] : List e820_entry).length ≤
        E820_MAX_ENTRIES ∧
      ([(100, 200), (300, 400)] : List (Nat × Nat)).length ≤ MAX_MODULE_COUNT) ∧
    ((multiboot2_to_acrn_mbi
        (encodeStream [⟨1048576, 4096, 1⟩, ⟨2097152, 8192, 2⟩]
          [(100, 200), (300, 400)]) acrn_multiboot_info.zero).ret = 0 ∧
      (multiboot2_to_acrn_mbi
        (encodeStream [⟨1048576, 4096, 1⟩, ⟨2097152, 8192, 2⟩]
          [(100, 200), (300, 400)]) acrn_multiboot_info.zero).mbi.mi_mmap_entries
        = ([⟨1048576, 4096, 1⟩, ⟨2097152, 8192, 2⟩] : List e820_entry).length ∧
      (∀ i, i < ([⟨1048576, 4096, 1⟩, ⟨2097152, 8192, 2⟩] :
          List e820_entry).length →
        (multiboot2_to_acrn_mbi
          (encodeStream [⟨1048576, 4096, 1⟩, ⟨2097152, 8192, 2⟩]
            [(100, 200), (300, 400)])
          acrn_multiboot_info.zero).mbi.mi_mmap_entry[i]? =
          some (([⟨1048576, 4096, 1⟩, ⟨2097152, 8192, 2⟩] :
            List e820_entry).getD i ⟨0, 0, 0⟩)) ∧
      (multiboot2_to_acrn_mbi
        (encodeStream [⟨1048576, 4096, 1⟩, ⟨2097152, 8192, 2⟩]
          [(100, 200), (300, 400)]) acrn_multiboot_info.zero).mbi.mi_mods_count
        = ([(100, 200), (300, 400)] : List (Nat × Nat)).length ∧
      (∀ i, i < ([(100, 200), (300, 400)] : List (Nat × Nat)).length → ∃ s,
        (multiboot2_to_acrn_mbi
          (encodeStream [⟨1048576, 4096, 1⟩, ⟨2097152, 8192, 2⟩]
            [(100, 200), (300, 400)]) acrn_multiboot_info.zero).mbi.mi_mods[i]?
          = some ⟨(([(100, 200), (300, 400)] : List (Nat × Nat)).getD i (0, 0)).1,
              (([(100, 200), (300, 400)] : List (Nat × Nat)).getD i (0, 0)).2,
              s⟩)) :=
  ⟨⟨by decide, by decide⟩,
    C8_roundtrip [⟨1048576, 4096, 1⟩, ⟨2097152, 8192, 2⟩]
      [(100, 200), (300, 400)] (by decide) (by decide) (by decide) (by decide)⟩

end MB2
